import Mathlib

/-!
Verification model of the DrDavinci backend core: the SQLite-backed data
model (users / chat_sessions / messages), the auth routes (signup, login,
verify) with their in-memory fixed-window rate limiter, and the history
routes (session and message CRUD with JSON-encoded message sub-fields).
Route handlers from `server/routes/auth.ts` and `server/routes/history.ts`
are embedded as pure state-passing functions over a `DB` value; the SQLite
statements they issue are translated to the corresponding list operations,
with `ON DELETE CASCADE` of the declared schema modelled at the store.
-/

/-! ## JSON values and the text codec

Model of the JSON values carried in request bodies and of the external
`JSON.stringify` / `JSON.parse` pair the history routes apply to the three
optional message sub-fields.  Numbers are modelled as integers and string
escaping covers quote, backslash and the common control characters. -/

inductive Json where
  | null : Json
  | bool : Bool → Json
  | num : Int → Json
  | str : String → Json
  | arr : List Json → Json
  | obj : List (String × Json) → Json

/-- Decimal digits of a natural number, most significant first. -/
def Json.natDigits (n : Nat) : List Char :=
  if n < 10 then [Char.ofNat (48 + n)]
  else Json.natDigits (n / 10) ++ [Char.ofNat (48 + n % 10)]
decreasing_by simp_wf; omega

/-- Decimal rendering of an integer. -/
def Json.intDigits (i : Int) : List Char :=
  if i < 0 then '-' :: Json.natDigits i.natAbs else Json.natDigits i.natAbs

/-- Escaping of a single character inside a JSON string literal. -/
def Json.escChar (c : Char) : List Char :=
  if c = '"' then ['\\', '"']
  else if c = '\\' then ['\\', '\\']
  else if c = '\n' then ['\\', 'n']
  else if c = '\r' then ['\\', 'r']
  else if c = '\t' then ['\\', 't']
  else [c]

/-- Escaping of a whole string body. -/
def Json.escStr : List Char → List Char
  | [] => []
  | c :: cs => Json.escChar c ++ Json.escStr cs

mutual

/-- Serializer for JSON values (model of `JSON.stringify`). -/
def Json.stringifyVal : Json → List Char
  | .obj [] => ['\x7b', '\x7d']
  | .obj ((k, v) :: fs) =>
    '\x7b' :: ('"' :: (Json.escStr k.data ++ ['"', ':'] ++ Json.stringifyVal v
      ++ Json.stringifyFields fs ++ ['\x7d']))
  | .arr [] => ['[', ']']
  | .arr (v :: vs) => '[' :: (Json.stringifyVal v ++ Json.stringifyItems vs ++ [']'])
  | .str s => '"' :: (Json.escStr s.data ++ ['"'])
  | .num i => Json.intDigits i
  | .bool b => if b then "true".data else "false".data
  | .null => "null".data

/-- Serializer for the tail of a non-empty array: each element preceded by a comma. -/
def Json.stringifyItems : List Json → List Char
  | [] => []
  | v :: vs => ',' :: (Json.stringifyVal v ++ Json.stringifyItems vs)

/-- Serializer for the tail of a non-empty object: each field preceded by a comma. -/
def Json.stringifyFields : List (String × Json) → List Char
  | [] => []
  | (k, v) :: fs =>
    ',' :: ('"' :: (Json.escStr k.data ++ ['"', ':'] ++ Json.stringifyVal v
      ++ Json.stringifyFields fs))

end

mutual

/-- Fuel bound used to run the parser: a size measure on JSON values. -/
def Json.jsizeVal : Json → Nat
  | .arr [] => 1
  | .arr (v :: vs) => Json.jsizeVal v + Json.jsizeItems vs + 2
  | .obj [] => 1
  | .obj ((_, v) :: fs) => Json.jsizeVal v + Json.jsizeFields fs + 2
  | .str _ => 1
  | .num _ => 1
  | .bool _ => 1
  | .null => 1

def Json.jsizeItems : List Json → Nat
  | [] => 0
  | v :: vs => Json.jsizeVal v + Json.jsizeItems vs + 1

def Json.jsizeFields : List (String × Json) → Nat
  | [] => 0
  | (_, v) :: fs => Json.jsizeVal v + Json.jsizeFields fs + 1

end

/-- Inverse of `Json.escChar` on escape codes. -/
def Json.unescChar (c : Char) : Option Char :=
  if c = '"' then some '"'
  else if c = '\\' then some '\\'
  else if c = 'n' then some '\n'
  else if c = 'r' then some '\r'
  else if c = 't' then some '\t'
  else none

/-- Parser for a JSON string body after the opening quote; returns the decoded
characters and the input following the closing quote. -/
def Json.parseStrBody : List Char → Option (List Char × List Char)
  | [] => none
  | c :: cs =>
    if c = '"' then some ([], cs)
    else if c = '\\' then
      match cs with
      | [] => none
      | e :: cs2 =>
        match Json.unescChar e with
        | none => none
        | some d =>
          match Json.parseStrBody cs2 with
          | none => none
          | some (s, r) => some (d :: s, r)
    else
      match Json.parseStrBody cs with
      | none => none
      | some (s, r) => some (c :: s, r)

/-- Parser for a run of decimal digits with accumulator. -/
def Json.parseDigits : List Char → Nat → Nat × List Char
  | [], acc => (acc, [])
  | c :: cs, acc =>
    if c.isDigit then Json.parseDigits cs (acc * 10 + (c.toNat - 48)) else (acc, c :: cs)

mutual

/-- Fuel-indexed parser for one JSON value (model of `JSON.parse`);
returns the value and the remaining input. -/
def Json.parseVal : Nat → List Char → Option (Json × List Char)
  | 0, _ => none
  | _ + 1, [] => none
  | fuel + 1, c :: cs =>
    if c.isDigit then
      match Json.parseDigits (c :: cs) 0 with
      | (n, r) => some (.num (n : Int), r)
    else if c = '-' then
      match cs with
      | [] => none
      | d :: cs2 =>
        if d.isDigit then
          match Json.parseDigits (d :: cs2) 0 with
          | (n, r) => some (.num (-(n : Int)), r)
        else none
    else if c = '"' then
      match Json.parseStrBody cs with
      | none => none
      | some (s, r) => some (.str ⟨s⟩, r)
    else if c = '[' then
      if cs.head? = some ']' then some (.arr [], cs.tail)
      else
        match Json.parseItems fuel cs with
        | none => none
        | some (vs, r) => some (.arr vs, r)
    else if c = '\x7b' then
      if cs.head? = some '\x7d' then some (.obj [], cs.tail)
      else
        match Json.parseFields fuel cs with
        | none => none
        | some (fs, r) => some (.obj fs, r)
    else if c = 'n' then
      match cs with
      | 'u' :: 'l' :: 'l' :: r => some (.null, r)
      | _ => none
    else if c = 't' then
      match cs with
      | 'r' :: 'u' :: 'e' :: r => some (.bool true, r)
      | _ => none
    else if c = 'f' then
      match cs with
      | 'a' :: 'l' :: 's' :: 'e' :: r => some (.bool false, r)
      | _ => none
    else none

/-- Parser for the elements of a non-empty array, up to and including `]`. -/
def Json.parseItems : Nat → List Char → Option (List Json × List Char)
  | 0, _ => none
  | fuel + 1, cs =>
    (Json.parseVal fuel cs).bind fun vr =>
      match vr.2 with
      | ',' :: r2 => (Json.parseItems fuel r2).map fun p => (vr.1 :: p.1, p.2)
      | ']' :: r2 => some ([vr.1], r2)
      | _ => none

/-- Parser for the fields of a non-empty object, up to and including `}`. -/
def Json.parseFields : Nat → List Char → Option (List (String × Json) × List Char)
  | 0, _ => none
  | fuel + 1, cs =>
    match cs with
    | '"' :: cs2 =>
      (Json.parseStrBody cs2).bind fun kr =>
        match kr.2 with
        | ':' :: r2 =>
          (Json.parseVal fuel r2).bind fun vr =>
            match vr.2 with
            | ',' :: r4 =>
              (Json.parseFields fuel r4).map fun p => ((⟨kr.1⟩, vr.1) :: p.1, p.2)
            | '\x7d' :: r4 => some ([(⟨kr.1⟩, vr.1)], r4)
            | _ => none
        | _ => none
    | _ => none

end

/-- Top-level JSON parse of a whole character list (model of `JSON.parse`):
the input must be consumed exactly. -/
def Json.parseJson (cs : List Char) : Option Json :=
  match Json.parseVal (cs.length + 1) cs with
  | some (v, []) => some v
  | _ => none

/-! ## Data model

Rows of the three tables created by `initializeDatabase` in
`server/database.ts`.  `DATETIME` text columns are carried as strings
(ISO timestamps compare by byte order, as SQLite compares TEXT);
`token_expiry` and `last_login` are modelled by their epoch-millisecond
values.  The three JSON sub-field TEXT columns of `messages` are
`Option String` (NULL or serialized text). -/

structure UserRow where
  id : String
  username : String
  password_hash : String
  name : String
  email : String
  auth_token : Option String
  token_expiry : Option Nat
  last_login : Option Nat
deriving DecidableEq

structure SessionRow where
  id : String
  user_id : String
  title : String
  created_at : String
  updated_at : String
deriving DecidableEq

structure MessageRow where
  id : String
  session_id : String
  role : String
  content : String
  image_url : Option String
  extracted_symptoms : Option String
  grounding_sources : Option String
  analysis_results : Option String
  timestamp : String
deriving DecidableEq

/-- The whole relational store. -/
structure DB where
  users : List UserRow
  sessions : List SessionRow
  messages : List MessageRow
deriving DecidableEq

/-- SQLite `LOWER`: ASCII-only lowercasing of one character. -/
def sqlLowerChar (c : Char) : Char :=
  if 'A' ≤ c ∧ c ≤ 'Z' then Char.ofNat (c.toNat + 32) else c

/-- SQLite `LOWER` on a string. -/
def sqlLower (s : String) : String := ⟨s.data.map sqlLowerChar⟩

/-- Model of the external `bcrypt.hash(password, cost)` (bcryptjs): an
injective salted-hash stand-in sufficient for functional reasoning. -/
def bcryptHash (password : String) (cost : Nat) : String :=
  "$2b$" ++ toString cost ++ "$" ++ password

/-- Model of the external `bcrypt.compare(password, hash)`. -/
def bcryptCompare (password hash : String) : Bool :=
  hash == bcryptHash password 12

/-- JavaScript truthiness of a JSON value (used by the `x ? ... : ...`
guards in the message save/read paths). -/
def jsTruthy : Json → Bool
  | .null => false
  | .bool b => b
  | .num i => i != 0
  | .str s => s ≠ ""
  | .arr _ => true
  | .obj _ => true

/-- JavaScript truthiness of an optional string request field
(`undefined` and the empty string are falsy). -/
def jsStrOpt : Option String → Option String
  | none => none
  | some s => if s = "" then none else some s

/-! ## Auth routes (`server/routes/auth.ts`) -/

/-- One entry of the in-memory `loginAttempts` map. -/
structure RateEntry where
  count : Nat
  timestamp : Nat
deriving DecidableEq

/-- The `loginAttempts` map, in insertion order as a JavaScript `Map`. -/
abbrev RateMap := List (String × RateEntry)

/-- `RATE_LIMIT_ATTEMPTS` from `auth.ts`. -/
def rateLimitAttempts : Nat := 5

/-- `RATE_LIMIT_WINDOW` from `auth.ts` (15 minutes in milliseconds). -/
def rateLimitWindow : Nat := 15 * 60 * 1000

/-- `Map.set`: replace the entry of an existing key in place, else append. -/
def rlSet : RateMap → String → RateEntry → RateMap
  | [], idf, e => [(idf, e)]
  | (k, v) :: rest, idf, e =>
    if k = idf then (idf, e) :: rest else (k, v) :: rlSet rest idf e

/-- `checkRateLimit` from `auth.ts`: fixed-window counter keyed by the raw
identifier; returns the allow decision and the updated map. -/
def checkRateLimit (m : RateMap) (identifier : String) (now : Nat) : Bool × RateMap :=
  match List.lookup identifier m with
  | none => (true, rlSet m identifier ⟨1, now⟩)
  | some attempt =>
    if now - attempt.timestamp > rateLimitWindow then
      (true, rlSet m identifier ⟨1, now⟩)
    else if attempt.count ≥ rateLimitAttempts then
      (false, m)
    else
      (true, rlSet m identifier ⟨attempt.count + 1, attempt.timestamp⟩)

/-- JS whitespace class `\s` (the characters relevant to this model). -/
def jsWhitespaceChar (c : Char) : Bool :=
  c = ' ' ∨ c = '\t' ∨ c = '\n' ∨ c = '\r' ∨ c = '\x0b' ∨ c = '\x0c' ∨
  c = ' ' ∨ c = '﻿'

/-- Character class `[^\s@]` of the signup email regex. -/
def emailAtomChar (c : Char) : Bool :=
  !(jsWhitespaceChar c) && c ≠ '@'

/-- The signup email test `/^[^\s@]+@[^\s@]+\.[^\s@]+$/`: a non-empty
`[^\s@]` run, `@`, then a non-empty `[^\s@]` run containing a `.` that has
at least one character on each side. -/
def emailRegexTest (s : String) : Bool :=
  let cs := s.data
  let a := cs.takeWhile (fun c => c ≠ '@')
  match cs.dropWhile (fun c => c ≠ '@') with
  | [] => false
  | _ :: b =>
    a ≠ [] && b ≠ [] && a.all emailAtomChar && b.all emailAtomChar &&
      ((b.drop 1).dropLast.contains '.')

/-- The signup username test `/^[a-zA-Z0-9_-]+$/`. -/
def usernameCharsTest (s : String) : Bool :=
  s.data ≠ [] && s.data.all fun c => c.isAlpha || c.isDigit || c = '_' || c = '-'

/-- `/[a-z]/.test password`. -/
def hasLowerTest (s : String) : Bool := s.data.any fun c => 'a' ≤ c && c ≤ 'z'

/-- `/[A-Z]/.test password`. -/
def hasUpperTest (s : String) : Bool := s.data.any fun c => 'A' ≤ c && c ≤ 'Z'

/-- `/\d/.test password`. -/
def hasDigitTest (s : String) : Bool := s.data.any fun c => '0' ≤ c && c ≤ '9'

/-- A signup request body; a missing field arrives as the empty string
(JavaScript falsiness of the destructured body fields). -/
structure SignupReq where
  username : String
  password : String
  name : String
  email : String

/-- The in-order fail-fast validation chain of `POST /signup`, returning
the first error message, `none` when all checks pass. -/
def signupValidationError (r : SignupReq) : Option String :=
  if r.username = "" ∨ r.password = "" ∨ r.name = "" ∨ r.email = "" then
    some "Missing required fields"
  else if !emailRegexTest r.email then
    some "Invalid email format"
  else if r.username.length < 3 then
    some "Username must be at least 3 characters"
  else if !usernameCharsTest r.username then
    some "Username can only contain letters, numbers, underscores, and hyphens"
  else if r.password.length < 8 then
    some "Password must be at least 8 characters"
  else if !hasLowerTest r.password ∨ !hasUpperTest r.password then
    some "Password must contain uppercase and lowercase letters"
  else if !hasDigitTest r.password then
    some "Password must contain at least one number"
  else
    none

/-- The public user projection object of the responses (`UserResponse`
serialized to JSON; an empty `email` is `undefined` and its key is dropped). -/
def userResponseJson (id username name email : String) : Json :=
  .obj ([("id", .str id), ("username", .str username), ("name", .str name)] ++
    (if email = "" then [] else [("email", .str email)]))

/-- `expiresIn`: 30 days in milliseconds. -/
def thirtyDaysMs : Nat := 30 * 24 * 60 * 60 * 1000

/-- `POST /signup`: validation chain, case-insensitive duplicate checks,
then user insertion; returns the HTTP status with its JSON body and the
updated store.  `freshId` and `freshToken` stand for the generated UUID
and random token, `now` is `Date.now()` in milliseconds. -/
def signup (db : DB) (r : SignupReq) (freshId freshToken : String) (now : Nat) :
    (Nat × Json) × DB :=
  match signupValidationError r with
  | some e => ((400, .obj [("error", .str e)]), db)
  | none =>
    if db.users.any (fun u => sqlLower u.username == sqlLower r.username) then
      ((409, .obj [("error", .str "Username already exists")]), db)
    else if db.users.any (fun u => sqlLower u.email == sqlLower r.email) then
      ((409, .obj [("error", .str "Email already registered")]), db)
    else
      let row : UserRow :=
        { id := freshId, username := r.username,
          password_hash := bcryptHash r.password 12, name := r.name,
          email := r.email, auth_token := some freshToken,
          token_expiry := some (now + thirtyDaysMs), last_login := none }
      ((201, .obj [("user", userResponseJson freshId r.username r.name r.email),
                   ("token", .str freshToken),
                   ("expiresIn", .num (thirtyDaysMs : Nat))]),
       { db with users := db.users ++ [row] })

/-- The row predicate of `WHERE LOWER(username) = LOWER(?)`. -/
def byLowerUsername (username : String) (u : UserRow) : Bool :=
  sqlLower u.username == sqlLower username

/-- `POST /login`: missing-field check, rate limit on the raw username,
case-insensitive user fetch, bcrypt comparison, then token rotation;
returns the response, the updated rate map and the updated store. -/
def login (db : DB) (rl : RateMap) (username password : String) (now : Nat)
    (freshToken : String) : (Nat × Json) × RateMap × DB :=
  if username = "" ∨ password = "" then
    ((400, .obj [("error", .str "Missing username or password")]), rl, db)
  else
    match checkRateLimit rl username now with
    | (allowed, rl') =>
      if !allowed then
        ((429, .obj [("error", .str "Too many login attempts. Please try again later.")]),
         rl', db)
      else
        match db.users.find? (byLowerUsername username) with
        | none => ((401, .obj [("error", .str "Invalid credentials")]), rl', db)
        | some u =>
          if !bcryptCompare password u.password_hash then
            ((401, .obj [("error", .str "Invalid credentials")]), rl', db)
          else
            let users' := db.users.map fun w =>
              if w.id = u.id then
                { w with auth_token := some freshToken,
                         token_expiry := some (now + thirtyDaysMs),
                         last_login := some now }
              else w
            ((200, .obj [("user", userResponseJson u.id u.username u.name u.email),
                         ("token", .str freshToken),
                         ("expiresIn", .num (thirtyDaysMs : Nat))]),
             rl', { db with users := users' })

/-- `POST /verify`: look the user up by identifier only and return the
public projection, or a not-found error. -/
def verify (db : DB) (userId : String) : Nat × Json :=
  if userId = "" then (400, .obj [("error", .str "Missing userId")])
  else
    match db.users.find? (fun u => u.id == userId) with
    | none => (401, .obj [("error", .str "User not found")])
    | some u => (200, .obj [("user", userResponseJson u.id u.username u.name u.email)])

/-! ## History routes (`server/routes/history.ts`) -/

/-- A message as returned by the GET routes: the three JSON sub-fields
parsed back into structured values (`undefined` when NULL or empty). -/
structure ParsedMessage where
  id : String
  session_id : String
  role : String
  content : String
  image_url : Option String
  extracted_symptoms : Option Json
  grounding_sources : Option Json
  analysis_results : Option Json
  timestamp : String

/-- Read one stored JSON sub-field: NULL or empty text is `undefined`;
anything else goes through `JSON.parse`, whose failure (a data-integrity
fault) is propagated as `none`. -/
def readJsonField : Option String → Option (Option Json)
  | none => some none
  | some s => if s = "" then some none else (Json.parseJson s.data).map some

/-- Parse the three stored sub-fields of one message row. -/
def parseMsgRow (m : MessageRow) : Option ParsedMessage :=
  match readJsonField m.extracted_symptoms, readJsonField m.grounding_sources,
        readJsonField m.analysis_results with
  | some es, some gs, some ar =>
    some { id := m.id, session_id := m.session_id, role := m.role,
           content := m.content, image_url := m.image_url,
           extracted_symptoms := es, grounding_sources := gs,
           analysis_results := ar, timestamp := m.timestamp }
  | _, _, _ => none

/-- The per-session `messages.map(...)` of the GET routes: a `JSON.parse`
exception anywhere aborts the whole request. -/
def parseAllMsgs : List MessageRow → Option (List ParsedMessage)
  | [] => some []
  | m :: rest =>
    match parseMsgRow m, parseAllMsgs rest with
    | some pm, some pr => some (pm :: pr)
    | _, _ => none

/-- `SELECT * FROM messages WHERE session_id = ? ORDER BY timestamp ASC`. -/
def sessionMessages (db : DB) (sid : String) : List MessageRow :=
  List.insertionSort (fun a b => a.timestamp ≤ b.timestamp)
    (db.messages.filter (fun m => m.session_id == sid))

inductive GetSessionResult where
  | notFound : GetSessionResult
  | integrityFault : GetSessionResult
  | ok : SessionRow → List ParsedMessage → GetSessionResult

/-- `GET /session/:sessionId`. -/
def getSession (db : DB) (sid : String) : GetSessionResult :=
  match db.sessions.find? (fun s => s.id == sid) with
  | none => .notFound
  | some s =>
    match parseAllMsgs (sessionMessages db sid) with
    | none => .integrityFault
    | some pms => .ok s pms

inductive ListSessionsResult where
  | badRequest : ListSessionsResult
  | integrityFault : ListSessionsResult
  | ok : List (SessionRow × List ParsedMessage) → ListSessionsResult

/-- Attach the parsed message list to each session row. -/
def attachMsgs (db : DB) : List SessionRow → Option (List (SessionRow × List ParsedMessage))
  | [] => some []
  | s :: rest =>
    match parseAllMsgs (sessionMessages db s.id), attachMsgs db rest with
    | some pms, some r => some ((s, pms) :: r)
    | _, _ => none

/-- `GET /sessions/:userId`: the user's sessions ordered by
`updated_at DESC`, each with its parsed messages. -/
def listSessions (db : DB) (uid : String) : ListSessionsResult :=
  if uid = "" then .badRequest
  else
    let ss := List.insertionSort (fun a b => b.updated_at ≤ a.updated_at)
      (db.sessions.filter (fun s => s.user_id == uid))
    match attachMsgs db ss with
    | none => .integrityFault
    | some l => .ok l

/-- A `POST /message` request body. -/
structure SaveMessageReq where
  sessionId : String
  role : String
  content : String
  imageUrl : Option String
  extractedSymptoms : Option Json
  groundingSources : Option Json
  analysisResults : Option Json
  messageId : Option String

/-- `x ? JSON.stringify(x) : null` on an optional JSON request field. -/
def storedJson : Option Json → Option String
  | none => none
  | some v => if jsTruthy v then some ⟨Json.stringifyVal v⟩ else none

inductive SaveMessageResult where
  | badRequest : SaveMessageResult
  | created : MessageRow → SaveMessageResult

/-- `POST /message`: insert the message; on a `SQLITE_CONSTRAINT` failure
(duplicate primary key, or a foreign-key violation when the session does
not exist) fall back to updating the existing row's mutable fields; then
bump the parent session's `updated_at`.  `freshId` stands for the
generated UUID, `now` for `new Date().toISOString()`. -/
def saveMessage (db : DB) (req : SaveMessageReq) (freshId : String) (now : String) :
    DB × SaveMessageResult :=
  if req.sessionId = "" ∨ req.role = "" ∨ req.content = "" then (db, .badRequest)
  else
    let id := match req.messageId with
      | some m => if m = "" then freshId else m
      | none => freshId
    let row : MessageRow :=
      { id := id, session_id := req.sessionId, role := req.role,
        content := req.content, image_url := jsStrOpt req.imageUrl,
        extracted_symptoms := storedJson req.extractedSymptoms,
        grounding_sources := storedJson req.groundingSources,
        analysis_results := storedJson req.analysisResults, timestamp := now }
    let constraintFails :=
      db.messages.any (fun m => m.id == id) ||
      !(db.sessions.any (fun s => s.id == req.sessionId))
    let messages' :=
      if constraintFails then
        db.messages.map fun m =>
          if m.id = id then
            { m with role := req.role, content := req.content,
                     image_url := jsStrOpt req.imageUrl,
                     extracted_symptoms := storedJson req.extractedSymptoms,
                     grounding_sources := storedJson req.groundingSources,
                     analysis_results := storedJson req.analysisResults,
                     timestamp := now }
          else m
      else db.messages ++ [row]
    let sessions' := db.sessions.map fun s =>
      if s.id = req.sessionId then { s with updated_at := now } else s
    let respMsg : MessageRow :=
      { id := id, session_id := req.sessionId, role := req.role,
        content := req.content, image_url := req.imageUrl,
        extracted_symptoms := storedJson req.extractedSymptoms,
        grounding_sources := storedJson req.groundingSources,
        analysis_results := storedJson req.analysisResults, timestamp := now }
    ({ db with sessions := sessions', messages := messages' }, .created respMsg)

/-- `DELETE /session/:sessionId`: delete the session row; the store's
`ON DELETE CASCADE` removes the messages of every deleted session. -/
def deleteSession (db : DB) (sid : String) : DB :=
  let deleted := db.sessions.filter (fun s => s.id == sid)
  { db with sessions := db.sessions.filter (fun s => !(s.id == sid)),
            messages := db.messages.filter
              (fun m => !(deleted.any (fun s => s.id == m.session_id))) }

/-- `DELETE /user/:userId`: delete all the user's sessions; the cascade
removes those sessions' messages. -/
def clearUserData (db : DB) (uid : String) : DB :=
  let deleted := db.sessions.filter (fun s => s.user_id == uid)
  { db with sessions := db.sessions.filter (fun s => !(s.user_id == uid)),
            messages := db.messages.filter
              (fun m => !(deleted.any (fun s => s.id == m.session_id))) }

/-! ## Spec-side definitions

Definitions written from the specification's words, used only to be
compared with the code-derived definitions above. -/

/-- The seven validation rules of the signup flow, in the order the
specification lists them. -/
inductive SignupRule where
  | missingFields : SignupRule
  | emailShape : SignupRule
  | usernameLen : SignupRule
  | usernameCharset : SignupRule
  | passwordLen : SignupRule
  | passwordCase : SignupRule
  | passwordDigit : SignupRule
deriving DecidableEq

/-- Modelled from the spec: "Validation order (fail fast, first violation
wins): all four fields present → email matches shape → username length ≥ 3
→ username charset → password length ≥ 8 → password contains both a
lowercase and uppercase letter → password contains at least one digit."
Returns the first violated rule. -/
def specFirstViolation (r : SignupReq) : Option SignupRule :=
  if ¬(r.username ≠ "" ∧ r.password ≠ "" ∧ r.name ≠ "" ∧ r.email ≠ "") then
    some .missingFields
  else if ¬(emailRegexTest r.email) then some .emailShape
  else if ¬(3 ≤ r.username.length) then some .usernameLen
  else if ¬(usernameCharsTest r.username) then some .usernameCharset
  else if ¬(8 ≤ r.password.length) then some .passwordLen
  else if ¬(hasLowerTest r.password ∧ hasUpperTest r.password) then some .passwordCase
  else if ¬(hasDigitTest r.password) then some .passwordDigit
  else none

/-- The error message the route attaches to each violated rule. -/
def ruleMessage : SignupRule → String
  | .missingFields => "Missing required fields"
  | .emailShape => "Invalid email format"
  | .usernameLen => "Username must be at least 3 characters"
  | .usernameCharset => "Username can only contain letters, numbers, underscores, and hyphens"
  | .passwordLen => "Password must be at least 8 characters"
  | .passwordCase => "Password must contain uppercase and lowercase letters"
  | .passwordDigit => "Password must contain at least one number"

/-- A user row with the stored token and its expiry erased: the
equivalence class over which `verify` must be constant. -/
def scrubToken (u : UserRow) : UserRow :=
  { u with auth_token := none, token_expiry := none }

/-- A structured JSON value in the sense of the round-trip claim: an
array or an object. -/
def Json.isStructured : Json → Prop
  | .arr _ => True
  | .obj _ => True
  | _ => False

/-- An optional message sub-field whose value, when present, is structured. -/
def optStructuredOk : Option Json → Prop
  | none => True
  | some v => v.isStructured

/-- The keys of a JSON object (empty for non-objects). -/
def jsonKeys : Json → List String
  | .obj fs => fs.map Prod.fst
  | _ => []

/-- Valid stored credentials for `username` / `password`: the row the
case-insensitive fetch returns carries the bcrypt hash of the password. -/
def ValidCreds (db : DB) (username password : String) : Prop :=
  ∃ u, db.users.find? (byLowerUsername username) = some u ∧
    u.password_hash = bcryptHash password 12

/-- Run a sequence of login calls; each list entry is the call time and
the token the call would issue, and the corresponding response is collected. -/
def loginChain (db : DB) (rl : RateMap) (username password : String) :
    List (Nat × String) → List (Nat × Json)
  | [] => []
  | (t, ftk) :: rest =>
    match login db rl username password t ftk with
    | (resp, rl', db') => resp :: loginChain db' rl' username password rest

/-! ## Helper lemmas -/

theorem rlSet_lookup_self (m : RateMap) (idf : String) (e : RateEntry) :
    List.lookup idf (rlSet m idf e) = some e := by
  induction m with
  | nil => simp [rlSet, List.lookup]
  | cons kv rest ih =>
    obtain ⟨k, v⟩ := kv
    by_cases h : k = idf
    · simp [rlSet, h, List.lookup]
    · simp only [rlSet, if_neg h, List.lookup]
      have : (idf == k) = false := by
        simp [beq_iff_eq]; exact fun hh => h hh.symm
      simp [this, ih]

/-! ## C2: the rate limiter is a fixed-window counter -/

/-- C2: `checkRateLimit` is a fixed-window counter with limit 5 and window
15 minutes: a missing or expired entry resets to count 1 and allows; within
the window a count below 5 increments and allows; a count at least 5 denies
without incrementing; concretely five attempts in one window are allowed,
the sixth is denied, and after the window elapses an attempt is allowed again. -/
theorem checkRateLimit_fixed_window :
    (∀ (m : RateMap) (idf : String) (now : Nat),
      List.lookup idf m = none →
      checkRateLimit m idf now = (true, rlSet m idf ⟨1, now⟩)) ∧
    (∀ (m : RateMap) (idf : String) (now : Nat) (a : RateEntry),
      List.lookup idf m = some a → now - a.timestamp > rateLimitWindow →
      checkRateLimit m idf now = (true, rlSet m idf ⟨1, now⟩)) ∧
    (∀ (m : RateMap) (idf : String) (now : Nat) (a : RateEntry),
      List.lookup idf m = some a → now - a.timestamp ≤ rateLimitWindow →
      a.count < rateLimitAttempts →
      checkRateLimit m idf now = (true, rlSet m idf ⟨a.count + 1, a.timestamp⟩)) ∧
    (∀ (m : RateMap) (idf : String) (now : Nat) (a : RateEntry),
      List.lookup idf m = some a → now - a.timestamp ≤ rateLimitWindow →
      rateLimitAttempts ≤ a.count →
      checkRateLimit m idf now = (false, m)) ∧
    (checkRateLimit [] "alice" 0 = (true, [("alice", ⟨1, 0⟩)]) ∧
     checkRateLimit [("alice", ⟨1, 0⟩)] "alice" 1000 = (true, [("alice", ⟨2, 0⟩)]) ∧
     checkRateLimit [("alice", ⟨2, 0⟩)] "alice" 2000 = (true, [("alice", ⟨3, 0⟩)]) ∧
     checkRateLimit [("alice", ⟨3, 0⟩)] "alice" 3000 = (true, [("alice", ⟨4, 0⟩)]) ∧
     checkRateLimit [("alice", ⟨4, 0⟩)] "alice" 4000 = (true, [("alice", ⟨5, 0⟩)]) ∧
     checkRateLimit [("alice", ⟨5, 0⟩)] "alice" 900000 = (false, [("alice", ⟨5, 0⟩)]) ∧
     checkRateLimit [("alice", ⟨5, 0⟩)] "alice" 900001 = (true, [("alice", ⟨1, 900001⟩)])) := by
  refine ⟨?_, ?_, ?_, ?_, ?_⟩
  · intro m idf now h
    simp [checkRateLimit, h]
  · intro m idf now a h hw
    simp [checkRateLimit, h, hw]
  · intro m idf now a h hw hc
    have h1 : ¬(now - a.timestamp > rateLimitWindow) := by omega
    have h2 : ¬(a.count ≥ rateLimitAttempts) := by omega
    simp [checkRateLimit, h, h1, h2]
  · intro m idf now a h hw hc
    have h1 : ¬(now - a.timestamp > rateLimitWindow) := by omega
    simp [checkRateLimit, h, h1, hc]
  · refine ⟨by decide, by decide, by decide, by decide, by decide, by decide, by decide⟩

/-- C2 witness: the reset branch evaluated at a concrete input. -/
theorem checkRateLimit_fixed_window_witness :
    checkRateLimit [] "bob" 7 = (true, rlSet [] "bob" ⟨1, 7⟩) :=
  checkRateLimit_fixed_window.1 [] "bob" 7 rfl

/-! ## C5: failed logins are indistinguishable -/

/-- C5: for a login that is not rate-limited and has both fields present,
a nonexistent username and a wrong password for an existing username
produce the identical failure response: status 401 with the same generic
"Invalid credentials" body. -/
theorem login_failures_indistinguishable
    (db1 db2 : DB) (rl1 rl2 : RateMap) (username password : String)
    (now1 now2 : Nat) (t1 t2 : String)
    (hu : username ≠ "") (hp : password ≠ "")
    (ha1 : (checkRateLimit rl1 username now1).1 = true)
    (ha2 : (checkRateLimit rl2 username now2).1 = true)
    (hnone : db1.users.find? (byLowerUsername username) = none)
    (u : UserRow)
    (hsome : db2.users.find? (byLowerUsername username) = some u)
    (hwrong : bcryptCompare password u.password_hash = false) :
    (login db1 rl1 username password now1 t1).1 =
        (401, .obj [("error", .str "Invalid credentials")]) ∧
    (login db2 rl2 username password now2 t2).1 =
        (401, .obj [("error", .str "Invalid credentials")]) ∧
    (login db1 rl1 username password now1 t1).1 =
        (login db2 rl2 username password now2 t2).1 := by
  have h1 : (login db1 rl1 username password now1 t1).1 =
      (401, .obj [("error", .str "Invalid credentials")]) := by
    unfold login
    rcases hc : checkRateLimit rl1 username now1 with ⟨allowed, rl'⟩
    rw [hc] at ha1
    simp only at ha1
    subst ha1
    simp [hu, hp, hnone]
  have h2 : (login db2 rl2 username password now2 t2).1 =
      (401, .obj [("error", .str "Invalid credentials")]) := by
    unfold login
    rcases hc : checkRateLimit rl2 username now2 with ⟨allowed, rl'⟩
    rw [hc] at ha2
    simp only at ha2
    subst ha2
    simp [hu, hp, hsome, hwrong]
  exact ⟨h1, h2, h1.trans h2.symm⟩

/-- C5 witness: an empty user table versus a store holding `alice` with a
hash the password does not match. -/
theorem login_failures_indistinguishable_witness :
    (login ⟨[], [], []⟩ [] "alice" "Wrong123" 0 "tk").1 =
        (401, .obj [("error", .str "Invalid credentials")]) ∧
    (login ⟨[⟨"u1", "alice", "nothash", "Alice", "a@b.cd", none, none, none⟩], [], []⟩
        [] "alice" "Wrong123" 0 "tk").1 =
        (401, .obj [("error", .str "Invalid credentials")]) ∧
    (login ⟨[], [], []⟩ [] "alice" "Wrong123" 0 "tk").1 =
    (login ⟨[⟨"u1", "alice", "nothash", "Alice", "a@b.cd", none, none, none⟩], [], []⟩
        [] "alice" "Wrong123" 0 "tk").1 :=
  login_failures_indistinguishable ⟨[], [], []⟩
    ⟨[⟨"u1", "alice", "nothash", "Alice", "a@b.cd", none, none, none⟩], [], []⟩
    [] [] "alice" "Wrong123" 0 0 "tk" "tk" (by decide) (by decide) rfl rfl rfl
    ⟨"u1", "alice", "nothash", "Alice", "a@b.cd", none, none, none⟩ rfl (by decide)

/-! ## C7: verify looks up by identifier only -/

/-- C7: `verify` returns the public projection exactly when a user with
the identifier exists and a not-found error otherwise, and its result is
unchanged under any modification of the stored tokens and token expiries. -/
theorem verify_by_identifier_only :
    (∀ (db : DB) (uid : String), uid ≠ "" →
      (∀ u, db.users.find? (fun w => w.id == uid) = some u →
        verify db uid = (200, .obj [("user", userResponseJson u.id u.username u.name u.email)])) ∧
      (db.users.find? (fun w => w.id == uid) = none →
        verify db uid = (401, .obj [("error", .str "User not found")]))) ∧
    (∀ (db1 db2 : DB) (uid : String),
      db1.users.map scrubToken = db2.users.map scrubToken →
      verify db1 uid = verify db2 uid) := by
  constructor
  · intro db uid hne
    constructor
    · intro u hu
      simp [verify, hne, hu]
    · intro hnone
      simp [verify, hne, hnone]
  · intro db1 db2 uid h
    have hcomp : ((fun w : UserRow => w.id == uid) ∘ scrubToken) =
        (fun w : UserRow => w.id == uid) := by
      funext w; rfl
    have key : Option.map scrubToken (db1.users.find? (fun w => w.id == uid)) =
        Option.map scrubToken (db2.users.find? (fun w => w.id == uid)) := by
      rw [← hcomp, ← List.find?_map, ← List.find?_map, h]
    unfold verify
    rcases h1 : db1.users.find? (fun w => w.id == uid) with _ | u1 <;>
      rcases h2 : db2.users.find? (fun w => w.id == uid) with _ | u2 <;>
      rw [h1, h2] at key <;> rw [h1, h2]
    · exact absurd key (by simp)
    · exact absurd key (by simp)
    · have he : scrubToken u1 = scrubToken u2 := by
        simpa using key
      have hid := congrArg UserRow.id he
      have hun := congrArg UserRow.username he
      have hnm := congrArg UserRow.name he
      have hem := congrArg UserRow.email he
      simp only [scrubToken] at hid hun hnm hem
      by_cases hu : uid = "" <;> simp [hu, hid, hun, hnm, hem]

/-- C7 witness: the projection branch at a one-user store, and invariance
between a store holding a token and the same store with the token cleared. -/
theorem verify_by_identifier_only_witness :
    verify ⟨[⟨"u1", "al", "h", "Al", "e@x.yz", none, none, none⟩], [], []⟩ "u1" =
      (200, .obj [("user", userResponseJson "u1" "al" "Al" "e@x.yz")]) ∧
    verify ⟨[⟨"u1", "al", "h", "Al", "e@x.yz", some "tok", some 99, none⟩], [], []⟩ "u1" =
      verify ⟨[⟨"u1", "al", "h", "Al", "e@x.yz", none, none, none⟩], [], []⟩ "u1" :=
  ⟨(verify_by_identifier_only.1
      ⟨[⟨"u1", "al", "h", "Al", "e@x.yz", none, none, none⟩], [], []⟩ "u1"
      (by decide)).1 ⟨"u1", "al", "h", "Al", "e@x.yz", none, none, none⟩ rfl,
   verify_by_identifier_only.2
      ⟨[⟨"u1", "al", "h", "Al", "e@x.yz", some "tok", some 99, none⟩], [], []⟩
      ⟨[⟨"u1", "al", "h", "Al", "e@x.yz", none, none, none⟩], [], []⟩ "u1" rfl⟩

/-! ## C8: success payloads never carry the password hash -/

/-- C8: the user object of every signup, login and verify success response
is the public projection, whose keys are among identifier, username, name
and email — never a password hash field. -/
theorem success_payload_excludes_password_hash :
    (∀ (id username name email : String),
      jsonKeys (userResponseJson id username name email) ⊆
        ["id", "username", "name", "email"] ∧
      "password_hash" ∉ jsonKeys (userResponseJson id username name email)) ∧
    (∀ (db : DB) (r : SignupReq) (freshId freshToken : String) (now : Nat)
        (body : Json) (dbOut : DB),
      signup db r freshId freshToken now = ((201, body), dbOut) →
      ∃ rest, body = .obj (("user", userResponseJson freshId r.username r.name r.email) :: rest)) ∧
    (∀ (db : DB) (rl : RateMap) (username password : String) (now : Nat)
        (ftk : String) (body : Json) (rl' : RateMap) (db' : DB),
      login db rl username password now ftk = ((200, body), rl', db') →
      ∃ (u : UserRow) (rest : List (String × Json)),
        body = .obj (("user", userResponseJson u.id u.username u.name u.email) :: rest)) ∧
    (∀ (db : DB) (uid : String) (body : Json),
      verify db uid = (200, body) →
      ∃ u : UserRow, body = .obj [("user", userResponseJson u.id u.username u.name u.email)]) := by
  refine ⟨?_, ?_, ?_, ?_⟩
  · intro id username name email
    by_cases h : email = "" <;>
      simp [userResponseJson, jsonKeys, h]
  · intro db r freshId freshToken now body dbOut h
    unfold signup at h
    split at h
    · simp at h
    · split at h
      · simp at h
      · split at h
        · simp at h
        · simp only [Prod.mk.injEq] at h
          exact ⟨_, h.1.2.symm⟩
  · intro db rl username password now ftk body rl' db' h
    unfold login at h
    by_cases hm : username = "" ∨ password = ""
    · rw [if_pos hm] at h; simp at h
    · rw [if_neg hm] at h
      rcases hc : checkRateLimit rl username now with ⟨allowed, rl2⟩
      rw [hc] at h
      cases allowed
      · simp at h
      · simp only [Bool.not_true, if_false, Bool.false_eq_true] at h
        rcases hf : db.users.find? (byLowerUsername username) with _ | u <;> rw [hf] at h
        · simp at h
        · by_cases hcmp : bcryptCompare password u.password_hash
          · simp only [hcmp, Bool.not_true, if_false, Bool.false_eq_true,
              Prod.mk.injEq] at h
            exact ⟨u, _, h.1.2.symm⟩
          · simp [hcmp] at h
  · intro db uid body h
    unfold verify at h
    by_cases hu : uid = ""
    · rw [if_pos hu] at h; simp at h
    · rw [if_neg hu] at h
      rcases hf : db.users.find? (fun u => u.id == uid) with _ | u <;> rw [hf] at h
      · simp at h
      · simp only [Prod.mk.injEq] at h
        exact ⟨u, h.2.symm⟩

/-- C8 witness: the verify success body at a one-user store. -/
theorem success_payload_excludes_password_hash_witness :
    ∃ u : UserRow, Json.obj [("user", userResponseJson "u1" "al" "Al" "e@x.yz")] =
      .obj [("user", userResponseJson u.id u.username u.name u.email)] :=
  success_payload_excludes_password_hash.2.2.2
    ⟨[⟨"u1", "al", "h", "Al", "e@x.yz", none, none, none⟩], [], []⟩ "u1"
    (Json.obj [("user", userResponseJson "u1" "al" "Al" "e@x.yz")]) rfl

/-! ## C4: signup validation order -/

/-- C4: signup validation is fail-fast in exactly the specified order —
the code's validation chain equals the first violated rule of the spec's
ordering — the duplicate checks run only when validation passes, and the
four concrete passwords behave as specified. -/
theorem signup_validation_order :
    (∀ r : SignupReq, signupValidationError r = (specFirstViolation r).map ruleMessage) ∧
    (∀ (db : DB) (r : SignupReq) (freshId freshToken : String) (now : Nat)
        (rule : SignupRule),
      specFirstViolation r = some rule →
      signup db r freshId freshToken now =
        ((400, .obj [("error", .str (ruleMessage rule))]), db)) ∧
    (∀ (db : DB) (r : SignupReq) (freshId freshToken : String) (now : Nat),
      specFirstViolation r = none →
      ((signup db r freshId freshToken now).1.1 = 409 ∨
       (signup db r freshId freshToken now).1.1 = 201)) ∧
    (signupValidationError ⟨"alice", "short1A", "Bob", "a@b.cd"⟩ =
        some "Password must be at least 8 characters" ∧
     signupValidationError ⟨"alice", "alllowercase1", "Bob", "a@b.cd"⟩ =
        some "Password must contain uppercase and lowercase letters" ∧
     signupValidationError ⟨"alice", "NoDigitsHere", "Bob", "a@b.cd"⟩ =
        some "Password must contain at least one number" ∧
     signupValidationError ⟨"alice", "Valid123", "Bob", "a@b.cd"⟩ = none) := by
  have horder : ∀ r : SignupReq,
      signupValidationError r = (specFirstViolation r).map ruleMessage := by
    intro r
    unfold signupValidationError specFirstViolation
    by_cases h1 : r.username = "" ∨ r.password = "" ∨ r.name = "" ∨ r.email = ""
    · rw [if_pos h1, if_pos (by tauto :
        ¬(r.username ≠ "" ∧ r.password ≠ "" ∧ r.name ≠ "" ∧ r.email ≠ ""))]
      rfl
    · rw [if_neg h1, if_neg (by tauto :
        ¬¬(r.username ≠ "" ∧ r.password ≠ "" ∧ r.name ≠ "" ∧ r.email ≠ ""))]
      by_cases h2 : emailRegexTest r.email
      · rw [if_neg (show ¬((!emailRegexTest r.email) = true) by simp [h2]),
            if_neg (show ¬¬(emailRegexTest r.email = true) by simp [h2])]
        by_cases h3 : r.username.length < 3
        · rw [if_pos h3, if_pos (show ¬(3 ≤ r.username.length) by omega)]
          rfl
        · rw [if_neg h3, if_neg (show ¬¬(3 ≤ r.username.length) by omega)]
          by_cases h4 : usernameCharsTest r.username
          · rw [if_neg (show ¬((!usernameCharsTest r.username) = true) by simp [h4]),
                if_neg (show ¬¬(usernameCharsTest r.username = true) by simp [h4])]
            by_cases h5 : r.password.length < 8
            · rw [if_pos h5, if_pos (show ¬(8 ≤ r.password.length) by omega)]
              rfl
            · rw [if_neg h5, if_neg (show ¬¬(8 ≤ r.password.length) by omega)]
              by_cases hL : hasLowerTest r.password
              · by_cases hU : hasUpperTest r.password
                · rw [if_neg (show ¬((!hasLowerTest r.password) = true ∨
                        (!hasUpperTest r.password) = true) by simp [hL, hU]),
                      if_neg (show ¬¬(hasLowerTest r.password = true ∧
                        hasUpperTest r.password = true) by simp [hL, hU])]
                  by_cases h7 : hasDigitTest r.password
                  · rw [if_neg (show ¬((!hasDigitTest r.password) = true) by simp [h7]),
                        if_neg (show ¬¬(hasDigitTest r.password = true) by simp [h7])]
                    rfl
                  · rw [Bool.not_eq_true] at h7
                    rw [if_pos (show (!hasDigitTest r.password) = true by simp [h7]),
                        if_pos (show ¬(hasDigitTest r.password = true) by simp [h7])]
                    rfl
                · rw [Bool.not_eq_true] at hU
                  rw [if_pos (show (!hasLowerTest r.password) = true ∨
                        (!hasUpperTest r.password) = true by simp [hU]),
                      if_pos (show ¬(hasLowerTest r.password = true ∧
                        hasUpperTest r.password = true) by simp [hU])]
                  rfl
              · rw [Bool.not_eq_true] at hL
                rw [if_pos (show (!hasLowerTest r.password) = true ∨
                      (!hasUpperTest r.password) = true by simp [hL]),
                    if_pos (show ¬(hasLowerTest r.password = true ∧
                      hasUpperTest r.password = true) by simp [hL])]
                rfl
          · rw [Bool.not_eq_true] at h4
            rw [if_pos (show (!usernameCharsTest r.username) = true by simp [h4]),
                if_pos (show ¬(usernameCharsTest r.username = true) by simp [h4])]
            rfl
      · rw [Bool.not_eq_true] at h2
        rw [if_pos (show (!emailRegexTest r.email) = true by simp [h2]),
            if_pos (show ¬(emailRegexTest r.email = true) by simp [h2])]
        rfl
  refine ⟨horder, ?_, ?_, by decide, by decide, by decide, by decide⟩
  · intro db r freshId freshToken now rule hspec
    have hv : signupValidationError r = some (ruleMessage rule) := by
      simp [horder r, hspec]
    unfold signup
    rw [hv]
  · intro db r freshId freshToken now hspec
    have hv : signupValidationError r = none := by
      simp [horder r, hspec]
    unfold signup
    rw [hv]
    split_ifs <;> simp

/-- C4 witness: the 400 short-password response at a concrete store. -/
theorem signup_validation_order_witness :
    signup ⟨[], [], []⟩ ⟨"alice", "short1A", "Bob", "a@b.cd"⟩ "id1" "tk1" 0 =
      ((400, .obj [("error", .str (ruleMessage .passwordLen))]), ⟨[], [], []⟩) :=
  signup_validation_order.2.1 ⟨[], [], []⟩ ⟨"alice", "short1A", "Bob", "a@b.cd"⟩
    "id1" "tk1" 0 .passwordLen (by decide)

/-! ## C1: deletion cascades -/

/-- C1: after deleting an existing session no message of that session (and
no session row with its identifier) remains; after clearing a user's data
no session owned by the user and no message of any such session remains. -/
theorem delete_cascades :
    (∀ (db : DB) (s : SessionRow), s ∈ db.sessions →
      (∀ m ∈ (deleteSession db s.id).messages, m.session_id ≠ s.id) ∧
      (∀ s' ∈ (deleteSession db s.id).sessions, s'.id ≠ s.id)) ∧
    (∀ (db : DB) (uid : String),
      (∀ s' ∈ (clearUserData db uid).sessions, s'.user_id ≠ uid) ∧
      (∀ m ∈ (clearUserData db uid).messages, ∀ s ∈ db.sessions,
        s.user_id = uid → m.session_id ≠ s.id)) := by
  constructor
  · intro db s hs
    constructor
    · intro m hm he
      simp only [deleteSession, List.mem_filter, Bool.not_eq_true',
        List.any_eq_false, List.mem_filter] at hm
      exact hm.2 s ⟨hs, by simp⟩ (by simp [he])
    · intro s' hs' he
      simp only [deleteSession, List.mem_filter, Bool.not_eq_true', beq_eq_false_iff_ne,
        ne_eq] at hs'
      exact hs'.2 he
  · intro db uid
    constructor
    · intro s' hs' he
      simp only [clearUserData, List.mem_filter, Bool.not_eq_true', beq_eq_false_iff_ne,
        ne_eq] at hs'
      exact hs'.2 he
    · intro m hm s hs hu he
      simp only [clearUserData, List.mem_filter, Bool.not_eq_true',
        List.any_eq_false, List.mem_filter] at hm
      exact hm.2 s ⟨hs, by simp [hu]⟩ (by simp [he])

/-- C1 witness: a store with one user, one session and two messages. -/
theorem delete_cascades_witness :
    (∀ m ∈ (deleteSession
        ⟨[], [⟨"s1", "u1", "T", "t0", "t0"⟩],
         [⟨"m1", "s1", "user", "hi", none, none, none, none, "t1"⟩,
          ⟨"m2", "s1", "assistant", "yo", none, none, none, none, "t2"⟩]⟩
        "s1").messages, m.session_id ≠ "s1") ∧
    (∀ s' ∈ (clearUserData
        ⟨[], [⟨"s1", "u1", "T", "t0", "t0"⟩],
         [⟨"m1", "s1", "user", "hi", none, none, none, none, "t1"⟩]⟩
        "u1").sessions, s'.user_id ≠ "u1") :=
  ⟨(delete_cascades.1
      ⟨[], [⟨"s1", "u1", "T", "t0", "t0"⟩],
       [⟨"m1", "s1", "user", "hi", none, none, none, none, "t1"⟩,
        ⟨"m2", "s1", "assistant", "yo", none, none, none, none, "t2"⟩]⟩
      ⟨"s1", "u1", "T", "t0", "t0"⟩ (by simp)).1,
   (delete_cascades.2
      ⟨[], [⟨"s1", "u1", "T", "t0", "t0"⟩],
       [⟨"m1", "s1", "user", "hi", none, none, none, none, "t1"⟩]⟩ "u1").1⟩

/-! ## C3: message save is an upsert by identifier -/

/-- C3: when a message with the supplied identifier already exists, the
save updates the existing row's mutable fields and timestamp in place —
no row is added or removed, every row with that identifier carries the
new fields, and exactly one row with that identifier remains. -/
theorem message_upsert_by_id
    (db : DB) (req : SaveMessageReq) (freshId now mid : String)
    (hmid : req.messageId = some mid) (hmid0 : mid ≠ "")
    (hsid : req.sessionId ≠ "") (hrole : req.role ≠ "") (hcontent : req.content ≠ "")
    (hlen : (db.messages.filter (fun m => m.id == mid)).length = 1) :
    ((saveMessage db req freshId now).1.messages.filter (fun m => m.id == mid)).length = 1 ∧
    (saveMessage db req freshId now).1.messages.length = db.messages.length ∧
    (∀ m ∈ (saveMessage db req freshId now).1.messages, m.id = mid →
      m.role = req.role ∧ m.content = req.content ∧ m.timestamp = now ∧
      m.image_url = jsStrOpt req.imageUrl ∧
      m.extracted_symptoms = storedJson req.extractedSymptoms ∧
      m.grounding_sources = storedJson req.groundingSources ∧
      m.analysis_results = storedJson req.analysisResults) := by
  have hbad : ¬(req.sessionId = "" ∨ req.role = "" ∨ req.content = "") := by tauto
  have hex : db.messages.any (fun m => m.id == mid) = true := by
    have hpos : 0 < (db.messages.filter (fun m => m.id == mid)).length := by omega
    obtain ⟨x, hx⟩ := List.exists_mem_of_length_pos hpos
    rw [List.mem_filter] at hx
    exact List.any_eq_true.2 ⟨x, hx.1, hx.2⟩
  have heq : (saveMessage db req freshId now).1.messages =
      db.messages.map (fun m =>
        if m.id = mid then
          { m with role := req.role, content := req.content,
                   image_url := jsStrOpt req.imageUrl,
                   extracted_symptoms := storedJson req.extractedSymptoms,
                   grounding_sources := storedJson req.groundingSources,
                   analysis_results := storedJson req.analysisResults,
                   timestamp := now }
        else m) := by
    simp [saveMessage, hmid, hbad, hmid0, hex]
  have hcomp : ((fun m : MessageRow => m.id == mid) ∘ (fun m =>
      if m.id = mid then
        { m with role := req.role, content := req.content,
                 image_url := jsStrOpt req.imageUrl,
                 extracted_symptoms := storedJson req.extractedSymptoms,
                 grounding_sources := storedJson req.groundingSources,
                 analysis_results := storedJson req.analysisResults,
                 timestamp := now }
      else m)) = (fun m : MessageRow => m.id == mid) := by
    funext m
    by_cases h : m.id = mid <;> simp [h]
  refine ⟨?_, ?_, ?_⟩
  · rw [heq, List.filter_map, hcomp, List.length_map, hlen]
  · rw [heq, List.length_map]
  · intro m hm hid
    rw [heq] at hm
    obtain ⟨m0, hm0, rfl⟩ := List.mem_map.1 hm
    by_cases h : m0.id = mid
    · simp [h]
    · rw [if_neg h] at hid ⊢
      exact absurd hid h

/-- C3 witness: re-saving `m1` with new content leaves exactly one row
with identifier `m1`, carrying the new fields. -/
theorem message_upsert_by_id_witness :
    (((saveMessage
        ⟨[], [⟨"s1", "u1", "T", "t0", "t0"⟩],
         [⟨"m1", "s1", "user", "old", none, none, none, none, "t1"⟩]⟩
        ⟨"s1", "user", "new", none, none, none, none, some "m1"⟩
        "g1" "t2").1.messages.filter (fun m => m.id == "m1")).length = 1) ∧
    ((saveMessage
        ⟨[], [⟨"s1", "u1", "T", "t0", "t0"⟩],
         [⟨"m1", "s1", "user", "old", none, none, none, none, "t1"⟩]⟩
        ⟨"s1", "user", "new", none, none, none, none, some "m1"⟩
        "g1" "t2").1.messages.length = 1) :=
  ⟨(message_upsert_by_id
      ⟨[], [⟨"s1", "u1", "T", "t0", "t0"⟩],
       [⟨"m1", "s1", "user", "old", none, none, none, none, "t1"⟩]⟩
      ⟨"s1", "user", "new", none, none, none, none, some "m1"⟩
      "g1" "t2" "m1" rfl (by decide) (by decide) (by decide) (by decide)
      (by decide)).1,
   (message_upsert_by_id
      ⟨[], [⟨"s1", "u1", "T", "t0", "t0"⟩],
       [⟨"m1", "s1", "user", "old", none, none, none, none, "t1"⟩]⟩
      ⟨"s1", "user", "new", none, none, none, none, some "m1"⟩
      "g1" "t2" "m1" rfl (by decide) (by decide) (by decide) (by decide)
      (by decide)).2.1⟩

/-! ## C10: frame effect of the fallback update -/

/-- C10: when the saved identifier already exists, the stored row keeps
its original owning session, while the response message and the
updated-timestamp bump both use the session supplied in the request;
sessions other than the requested one are untouched. -/
theorem message_upsert_session_frame
    (db : DB) (req : SaveMessageReq) (freshId now mid s1 : String)
    (hmid : req.messageId = some mid) (hmid0 : mid ≠ "")
    (hsid : req.sessionId ≠ "") (hrole : req.role ≠ "") (hcontent : req.content ≠ "")
    (hex : ∃ m ∈ db.messages, m.id = mid)
    (hown : ∀ m ∈ db.messages, m.id = mid → m.session_id = s1)
    (hs2 : ∃ s ∈ db.sessions, s.id = req.sessionId) :
    (∀ m ∈ (saveMessage db req freshId now).1.messages, m.id = mid →
      m.session_id = s1) ∧
    (∃ msg, (saveMessage db req freshId now).2 = .created msg ∧
      msg.session_id = req.sessionId ∧ msg.timestamp = now) ∧
    (∃ s ∈ (saveMessage db req freshId now).1.sessions,
      s.id = req.sessionId ∧ s.updated_at = now) ∧
    (∀ s ∈ db.sessions, s.id ≠ req.sessionId →
      s ∈ (saveMessage db req freshId now).1.sessions) := by
  have hbad : ¬(req.sessionId = "" ∨ req.role = "" ∨ req.content = "") := by tauto
  have hany : db.messages.any (fun m => m.id == mid) = true := by
    obtain ⟨x, hx, hxid⟩ := hex
    exact List.any_eq_true.2 ⟨x, hx, by simp [hxid]⟩
  have hmsgs : (saveMessage db req freshId now).1.messages =
      db.messages.map (fun m =>
        if m.id = mid then
          { m with role := req.role, content := req.content,
                   image_url := jsStrOpt req.imageUrl,
                   extracted_symptoms := storedJson req.extractedSymptoms,
                   grounding_sources := storedJson req.groundingSources,
                   analysis_results := storedJson req.analysisResults,
                   timestamp := now }
        else m) := by
    simp [saveMessage, hmid, hbad, hmid0, hany]
  have hsess : (saveMessage db req freshId now).1.sessions =
      db.sessions.map (fun s =>
        if s.id = req.sessionId then { s with updated_at := now } else s) := by
    simp [saveMessage, hmid, hbad, hmid0, hany]
  have hresp : (saveMessage db req freshId now).2 =
      .created { id := mid, session_id := req.sessionId, role := req.role,
                 content := req.content, image_url := req.imageUrl,
                 extracted_symptoms := storedJson req.extractedSymptoms,
                 grounding_sources := storedJson req.groundingSources,
                 analysis_results := storedJson req.analysisResults,
                 timestamp := now } := by
    simp [saveMessage, hmid, hbad, hmid0, hany]
  refine ⟨?_, ?_, ?_, ?_⟩
  · intro m hm hid
    rw [hmsgs] at hm
    obtain ⟨m0, hm0, rfl⟩ := List.mem_map.1 hm
    by_cases h : m0.id = mid
    · rw [if_pos h]
      exact hown m0 hm0 h
    · rw [if_neg h] at hid ⊢
      exact hown m0 hm0 hid
  · exact ⟨_, hresp, rfl, rfl⟩
  · obtain ⟨s0, hs0, hid⟩ := hs2
    refine ⟨{ s0 with updated_at := now }, ?_, hid, rfl⟩
    rw [hsess]
    exact List.mem_map.2 ⟨s0, hs0, by simp [hid]⟩
  · intro s hs hne
    rw [hsess]
    exact List.mem_map.2 ⟨s, hs, by simp [hne]⟩

/-- C10 witness: re-saving `m1` under session `s2` leaves the stored row
in `s1` while `s2` gets the timestamp bump. -/
theorem message_upsert_session_frame_witness :
    (∀ m ∈ (saveMessage
        ⟨[], [⟨"s1", "u1", "T", "t0", "t0"⟩, ⟨"s2", "u1", "U", "t0", "t0"⟩],
         [⟨"m1", "s1", "user", "old", none, none, none, none, "t1"⟩]⟩
        ⟨"s2", "user", "new", none, none, none, none, some "m1"⟩
        "g1" "t2").1.messages, m.id = "m1" → m.session_id = "s1") ∧
    (∃ s ∈ (saveMessage
        ⟨[], [⟨"s1", "u1", "T", "t0", "t0"⟩, ⟨"s2", "u1", "U", "t0", "t0"⟩],
         [⟨"m1", "s1", "user", "old", none, none, none, none, "t1"⟩]⟩
        ⟨"s2", "user", "new", none, none, none, none, some "m1"⟩
        "g1" "t2").1.sessions, s.id = "s2" ∧ s.updated_at = "t2") := by
  have h := message_upsert_session_frame
    ⟨[], [⟨"s1", "u1", "T", "t0", "t0"⟩, ⟨"s2", "u1", "U", "t0", "t0"⟩],
     [⟨"m1", "s1", "user", "old", none, none, none, none, "t1"⟩]⟩
    ⟨"s2", "user", "new", none, none, none, none, some "m1"⟩
    "g1" "t2" "m1" "s1" rfl (by decide) (by decide) (by decide) (by decide)
    ⟨⟨"m1", "s1", "user", "old", none, none, none, none, "t1"⟩, by simp, rfl⟩
    (by intro m hm hid
        simp only [List.mem_singleton] at hm
        rw [hm])
    ⟨⟨"s2", "u1", "U", "t0", "t0"⟩, by simp, rfl⟩
  exact ⟨h.1, h.2.2.1⟩

/-! ## C9: successful logins are counted by the rate limiter -/

theorem checkRateLimit_fresh (m : RateMap) (idf : String) (now : Nat)
    (h : List.lookup idf m = none) :
    checkRateLimit m idf now = (true, rlSet m idf ⟨1, now⟩) := by
  simp [checkRateLimit, h]

theorem checkRateLimit_incr (m : RateMap) (idf : String) (now : Nat) (a : RateEntry)
    (h : List.lookup idf m = some a) (hw : now - a.timestamp ≤ rateLimitWindow)
    (hc : a.count < rateLimitAttempts) :
    checkRateLimit m idf now = (true, rlSet m idf ⟨a.count + 1, a.timestamp⟩) := by
  have h1 : ¬(now - a.timestamp > rateLimitWindow) := by omega
  have h2 : ¬(a.count ≥ rateLimitAttempts) := by omega
  simp [checkRateLimit, h, h1, h2]

theorem checkRateLimit_deny (m : RateMap) (idf : String) (now : Nat) (a : RateEntry)
    (h : List.lookup idf m = some a) (hw : now - a.timestamp ≤ rateLimitWindow)
    (hc : rateLimitAttempts ≤ a.count) :
    checkRateLimit m idf now = (false, m) := by
  have h1 : ¬(now - a.timestamp > rateLimitWindow) := by omega
  simp [checkRateLimit, h, h1, hc]

theorem login_success_eq
    (db : DB) (rl : RateMap) (username password : String) (t : Nat) (ftk : String)
    (hu : username ≠ "") (hp : password ≠ "")
    (u : UserRow) (hfind : db.users.find? (byLowerUsername username) = some u)
    (hhash : u.password_hash = bcryptHash password 12)
    (rl2 : RateMap) (hallow : checkRateLimit rl username t = (true, rl2)) :
    login db rl username password t ftk =
      ((200, .obj [("user", userResponseJson u.id u.username u.name u.email),
                   ("token", .str ftk), ("expiresIn", .num (thirtyDaysMs : Nat))]),
       rl2,
       { db with users := db.users.map (fun w =>
          if w.id = u.id then
            { w with auth_token := some ftk,
                     token_expiry := some (t + thirtyDaysMs),
                     last_login := some t }
          else w) }) := by
  have hcmp : bcryptCompare password u.password_hash = true := by
    simp [bcryptCompare, hhash]
  unfold login
  rw [if_neg (by tauto : ¬(username = "" ∨ password = "")), hallow]
  simp [hfind, hcmp]

theorem login_denied_eq
    (db : DB) (rl : RateMap) (username password : String) (t : Nat) (ftk : String)
    (hu : username ≠ "") (hp : password ≠ "")
    (rl2 : RateMap) (hdeny : checkRateLimit rl username t = (false, rl2)) :
    login db rl username password t ftk =
      ((429, .obj [("error", .str "Too many login attempts. Please try again later.")]),
       rl2, db) := by
  unfold login
  rw [if_neg (by tauto : ¬(username = "" ∨ password = "")), hdeny]
  simp

theorem login_step_success
    (db : DB) (rl : RateMap) (username password ftk : String) (t : Nat)
    (hu : username ≠ "") (hp : password ≠ "")
    (hcred : ValidCreds db username password)
    (rl2 : RateMap) (hallow : checkRateLimit rl username t = (true, rl2)) :
    ∃ body db',
      login db rl username password t ftk = ((200, body), rl2, db') ∧
      ValidCreds db' username password := by
  obtain ⟨u, hfind, hhash⟩ := hcred
  refine ⟨_, _, login_success_eq db rl username password t ftk hu hp u hfind hhash
    rl2 hallow, ?_⟩
  have hcomp : (byLowerUsername username ∘ (fun w : UserRow =>
      if w.id = u.id then
        { w with auth_token := some ftk, token_expiry := some (t + thirtyDaysMs),
                 last_login := some t }
      else w)) = byLowerUsername username := by
    funext w
    by_cases h : w.id = u.id <;> simp [byLowerUsername, h]
  refine ⟨(fun w : UserRow =>
      if w.id = u.id then
        { w with auth_token := some ftk, token_expiry := some (t + thirtyDaysMs),
                 last_login := some t }
      else w) u, ?_, ?_⟩
  · show (db.users.map _).find? (byLowerUsername username) = _
    rw [List.find?_map, hcomp, hfind]
    rfl
  · by_cases h : u.id = u.id <;> simp [h, hhash]

/-- C9: the rate limiter counts every login attempt that passes the
missing-fields check, successful ones included — five successful logins
inside one window use up the budget and the sixth call is denied with the
throttling error. -/
theorem sixth_login_denied_after_five_successes
    (db : DB) (rl : RateMap) (username password : String)
    (t0 t1 t2 t3 t4 t5 : Nat) (k0 k1 k2 k3 k4 k5 : String)
    (hu : username ≠ "") (hp : password ≠ "")
    (hcred : ValidCreds db username password)
    (hrl0 : List.lookup username rl = none)
    (hw1 : t1 - t0 ≤ rateLimitWindow) (hw2 : t2 - t0 ≤ rateLimitWindow)
    (hw3 : t3 - t0 ≤ rateLimitWindow) (hw4 : t4 - t0 ≤ rateLimitWindow)
    (hw5 : t5 - t0 ≤ rateLimitWindow) :
    ∃ b1 b2 b3 b4 b5,
      loginChain db rl username password
          [(t0, k0), (t1, k1), (t2, k2), (t3, k3), (t4, k4), (t5, k5)] =
        [(200, b1), (200, b2), (200, b3), (200, b4), (200, b5),
         (429, .obj [("error", .str "Too many login attempts. Please try again later.")])] := by
  have hc0 := checkRateLimit_fresh rl username t0 hrl0
  obtain ⟨b1, db1, he1, hcred1⟩ :=
    login_step_success db rl username password k0 t0 hu hp hcred _ hc0
  have hl1 : List.lookup username (rlSet rl username ⟨1, t0⟩) = some ⟨1, t0⟩ :=
    rlSet_lookup_self rl username ⟨1, t0⟩
  have hc1 := checkRateLimit_incr _ username t1 _ hl1 hw1
    (by show (1 : Nat) < rateLimitAttempts; decide)
  obtain ⟨b2, db2, he2, hcred2⟩ :=
    login_step_success db1 _ username password k1 t1 hu hp hcred1 _ hc1
  have hl2 : List.lookup username
      (rlSet (rlSet rl username ⟨1, t0⟩) username ⟨2, t0⟩) = some ⟨2, t0⟩ :=
    rlSet_lookup_self _ username ⟨2, t0⟩
  have hc2 := checkRateLimit_incr _ username t2 _ hl2 hw2
    (by show (2 : Nat) < rateLimitAttempts; decide)
  obtain ⟨b3, db3, he3, hcred3⟩ :=
    login_step_success db2 _ username password k2 t2 hu hp hcred2 _ hc2
  have hl3 : List.lookup username
      (rlSet (rlSet (rlSet rl username ⟨1, t0⟩) username ⟨2, t0⟩) username ⟨3, t0⟩) =
      some ⟨3, t0⟩ :=
    rlSet_lookup_self _ username ⟨3, t0⟩
  have hc3 := checkRateLimit_incr _ username t3 _ hl3 hw3
    (by show (3 : Nat) < rateLimitAttempts; decide)
  obtain ⟨b4, db4, he4, hcred4⟩ :=
    login_step_success db3 _ username password k3 t3 hu hp hcred3 _ hc3
  have hl4 : List.lookup username
      (rlSet (rlSet (rlSet (rlSet rl username ⟨1, t0⟩) username ⟨2, t0⟩) username
        ⟨3, t0⟩) username ⟨4, t0⟩) = some ⟨4, t0⟩ :=
    rlSet_lookup_self _ username ⟨4, t0⟩
  have hc4 := checkRateLimit_incr _ username t4 _ hl4 hw4
    (by show (4 : Nat) < rateLimitAttempts; decide)
  obtain ⟨b5, db5, he5, hcred5⟩ :=
    login_step_success db4 _ username password k4 t4 hu hp hcred4 _ hc4
  have hl5 : List.lookup username
      (rlSet (rlSet (rlSet (rlSet (rlSet rl username ⟨1, t0⟩) username ⟨2, t0⟩)
        username ⟨3, t0⟩) username ⟨4, t0⟩) username ⟨5, t0⟩) = some ⟨5, t0⟩ :=
    rlSet_lookup_self _ username ⟨5, t0⟩
  have hc5 := checkRateLimit_deny _ username t5 _ hl5 hw5
    (by show rateLimitAttempts ≤ (5 : Nat); decide)
  have he6 := login_denied_eq db5 _ username password t5 k5 hu hp _ hc5
  refine ⟨b1, b2, b3, b4, b5, ?_⟩
  simp [loginChain, he1, he2, he3, he4, he5, he6]

/-- C9 witness: six same-instant logins with correct credentials — five
succeed, the sixth is throttled. -/
theorem sixth_login_denied_after_five_successes_witness :
    ∃ b1 b2 b3 b4 b5,
      loginChain
        ⟨[⟨"u1", "bob", bcryptHash "Valid123" 12, "Bob", "b@c.de", none, none, none⟩],
         [], []⟩
        [] "bob" "Valid123"
        [(0, "k"), (0, "k"), (0, "k"), (0, "k"), (0, "k"), (0, "k")] =
      [(200, b1), (200, b2), (200, b3), (200, b4), (200, b5),
       (429, .obj [("error", .str "Too many login attempts. Please try again later.")])] :=
  sixth_login_denied_after_five_successes
    ⟨[⟨"u1", "bob", bcryptHash "Valid123" 12, "Bob", "b@c.de", none, none, none⟩],
     [], []⟩
    [] "bob" "Valid123" 0 0 0 0 0 0 "k" "k" "k" "k" "k" "k"
    (by decide) (by decide)
    ⟨⟨"u1", "bob", bcryptHash "Valid123" 12, "Bob", "b@c.de", none, none, none⟩,
     rfl, rfl⟩
    rfl (by decide) (by decide) (by decide) (by decide) (by decide)

/-! ## C6: JSON sub-field round trip — codec lemmas -/

theorem stringify_null_eq : Json.stringifyVal .null = ['n', 'u', 'l', 'l'] := rfl

theorem stringify_true_eq : Json.stringifyVal (.bool true) = ['t', 'r', 'u', 'e'] := rfl

theorem stringify_false_eq :
    Json.stringifyVal (.bool false) = ['f', 'a', 'l', 's', 'e'] := rfl

theorem digitChar_facts (d : Nat) (hd : d < 10) :
    (Char.ofNat (48 + d)).isDigit = true ∧ (Char.ofNat (48 + d)).toNat = 48 + d := by
  interval_cases d <;> exact ⟨by decide, by decide⟩

theorem natDigits_facts (n : Nat) :
    Json.natDigits n ≠ [] ∧ ∀ c ∈ Json.natDigits n, c.isDigit = true := by
  induction n using Nat.strong_induction_on with
  | _ n ih =>
    rw [Json.natDigits]
    by_cases h : n < 10
    · rw [if_pos h]
      refine ⟨by simp, ?_⟩
      intro c hc
      rw [List.mem_singleton] at hc
      rw [hc]
      exact (digitChar_facts n h).1
    · rw [if_neg h]
      have hdiv : n / 10 < n := Nat.div_lt_self (by omega) (by omega)
      obtain ⟨hne, hdig⟩ := ih (n / 10) hdiv
      refine ⟨by simp [hne], ?_⟩
      intro c hc
      rw [List.mem_append] at hc
      rcases hc with hc | hc
      · exact hdig c hc
      · rw [List.mem_singleton] at hc
        rw [hc]
        exact (digitChar_facts (n % 10) (Nat.mod_lt _ (by omega))).1

theorem stringifyVal_ne_nil (v : Json) : Json.stringifyVal v ≠ [] := by
  cases v with
  | null => simp [stringify_null_eq]
  | bool b => cases b <;> simp [stringify_false_eq, stringify_true_eq]
  | num i =>
    simp only [Json.stringifyVal, Json.intDigits]
    by_cases h : i < 0
    · simp [h]
    · simp [h, (natDigits_facts i.natAbs).1]
  | str s => simp [Json.stringifyVal]
  | arr vs => cases vs <;> simp [Json.stringifyVal]
  | obj fs =>
    rcases fs with _ | ⟨⟨k, v⟩, fs⟩ <;> simp [Json.stringifyVal]

theorem stringifyVal_head_not_bracket (v : Json) (c : Char)
    (hc : (Json.stringifyVal v).head? = some c) : c ≠ ']' ∧ c ≠ '\x7d' := by
  cases v with
  | null =>
    rw [stringify_null_eq] at hc
    simp at hc
    subst hc
    exact ⟨by decide, by decide⟩
  | bool b =>
    cases b
    · rw [stringify_false_eq] at hc
      simp at hc
      subst hc
      exact ⟨by decide, by decide⟩
    · rw [stringify_true_eq] at hc
      simp at hc
      subst hc
      exact ⟨by decide, by decide⟩
  | num i =>
    simp only [Json.stringifyVal, Json.intDigits] at hc
    by_cases h : i < 0
    · rw [if_pos h] at hc
      simp at hc
      subst hc
      exact ⟨by decide, by decide⟩
    · rw [if_neg h] at hc
      obtain ⟨hne, hdig⟩ := natDigits_facts i.natAbs
      obtain ⟨d, tl, hd⟩ := List.exists_cons_of_ne_nil hne
      rw [hd] at hc
      simp only [List.head?_cons, Option.some.injEq] at hc
      have hcd : d.isDigit = true := hdig d (by rw [hd]; exact List.mem_cons_self _ _)
      rw [← hc]
      constructor <;> intro hx <;> rw [hx] at hcd <;> exact absurd hcd (by decide)
  | str s => simp [Json.stringifyVal] at hc; subst hc; exact ⟨by decide, by decide⟩
  | arr vs =>
    cases vs <;> simp [Json.stringifyVal] at hc <;> subst hc <;>
      exact ⟨by decide, by decide⟩
  | obj fs =>
    rcases fs with _ | ⟨⟨k, v⟩, fs⟩ <;> simp [Json.stringifyVal] at hc <;>
      subst hc <;> exact ⟨by decide, by decide⟩

theorem parseStrBody_escStr (cs rest : List Char) :
    Json.parseStrBody (Json.escStr cs ++ ('"' :: rest)) = some (cs, rest) := by
  induction cs with
  | nil =>
    have hesc : Json.escStr [] ++ ('"' :: rest) = '"' :: rest := by simp [Json.escStr]
    rw [hesc]
    unfold Json.parseStrBody
    simp
  | cons c cs ih =>
    by_cases h1 : c = '"'
    · subst h1
      have hesc : Json.escStr ('"' :: cs) ++ ('"' :: rest) =
          '\\' :: ('"' :: (Json.escStr cs ++ ('"' :: rest))) := by
        simp [Json.escStr, Json.escChar]
      rw [hesc]
      unfold Json.parseStrBody
      simp [Json.unescChar, ih]
    · by_cases h2 : c = '\\'
      · subst h2
        have hesc : Json.escStr ('\\' :: cs) ++ ('"' :: rest) =
            '\\' :: ('\\' :: (Json.escStr cs ++ ('"' :: rest))) := by
          simp [Json.escStr, Json.escChar]
        rw [hesc]
        unfold Json.parseStrBody
        simp [Json.unescChar, ih]
      · by_cases h3 : c = '\n'
        · subst h3
          have hesc : Json.escStr ('\n' :: cs) ++ ('"' :: rest) =
              '\\' :: ('n' :: (Json.escStr cs ++ ('"' :: rest))) := by
            simp [Json.escStr, Json.escChar]
          rw [hesc]
          unfold Json.parseStrBody
          simp [Json.unescChar, ih]
        · by_cases h4 : c = '\r'
          · subst h4
            have hesc : Json.escStr ('\r' :: cs) ++ ('"' :: rest) =
                '\\' :: ('r' :: (Json.escStr cs ++ ('"' :: rest))) := by
              simp [Json.escStr, Json.escChar]
            rw [hesc]
            unfold Json.parseStrBody
            simp [Json.unescChar, ih]
          · by_cases h5 : c = '\t'
            · subst h5
              have hesc : Json.escStr ('\t' :: cs) ++ ('"' :: rest) =
                  '\\' :: ('t' :: (Json.escStr cs ++ ('"' :: rest))) := by
                simp [Json.escStr, Json.escChar]
              rw [hesc]
              unfold Json.parseStrBody
              simp [Json.unescChar, ih]
            · have hesc : Json.escStr (c :: cs) ++ ('"' :: rest) =
                  c :: (Json.escStr cs ++ ('"' :: rest)) := by
                simp [Json.escStr, Json.escChar, h1, h2, h3, h4, h5]
              rw [hesc]
              unfold Json.parseStrBody
              simp [h1, h2, ih]

theorem parseDigits_stop (rest : List Char) (acc : Nat)
    (h : ∀ c ∈ rest.take 1, c.isDigit = false) :
    Json.parseDigits rest acc = (acc, rest) := by
  cases rest with
  | nil =>
    conv_lhs => rw [Json.parseDigits.eq_def]
  | cons c cs =>
    have hc : c.isDigit = false := h c (by simp)
    conv_lhs => rw [Json.parseDigits.eq_def]
    simp [hc]

theorem parseDigits_cons (c : Char) (cs : List Char) (acc : Nat)
    (hc : c.isDigit = true) :
    Json.parseDigits (c :: cs) acc = Json.parseDigits cs (acc * 10 + (c.toNat - 48)) := by
  conv_lhs => rw [Json.parseDigits.eq_def]
  simp [hc]

theorem parseDigits_append (ds : List Char) : ∀ (rest : List Char) (acc : Nat),
    (∀ c ∈ ds, c.isDigit = true) →
    Json.parseDigits (ds ++ rest) acc =
      Json.parseDigits rest (ds.foldl (fun a c => a * 10 + (c.toNat - 48)) acc) := by
  induction ds with
  | nil => intro rest acc _; simp
  | cons c ds ih =>
    intro rest acc h
    have hc : c.isDigit = true := h c (by simp)
    rw [List.cons_append, parseDigits_cons c (ds ++ rest) acc hc,
      ih rest _ (fun d hd => h d (by simp [hd])), List.foldl_cons]

theorem foldl_natDigits (n : Nat) : ∀ acc : Nat,
    (Json.natDigits n).foldl (fun a c => a * 10 + (c.toNat - 48)) acc =
      acc * 10 ^ (Json.natDigits n).length + n := by
  induction n using Nat.strong_induction_on with
  | _ n ih =>
    intro acc
    rw [Json.natDigits]
    by_cases h : n < 10
    · rw [if_pos h]
      simp [(digitChar_facts n h).2]
    · rw [if_neg h]
      have hdiv : n / 10 < n := Nat.div_lt_self (by omega) (by omega)
      rw [List.foldl_append, ih (n / 10) hdiv acc, List.length_append]
      simp [(digitChar_facts (n % 10) (Nat.mod_lt _ (by omega))).2]
      have hmod : n / 10 * 10 + n % 10 = n := by omega
      have hpow : (10 : Nat) ^ ((Json.natDigits (n / 10)).length + 1) =
          10 ^ (Json.natDigits (n / 10)).length * 10 := pow_succ 10 _
      rw [hpow, Nat.add_mul, Nat.add_assoc, hmod, Nat.mul_assoc]

theorem parseDigits_natDigits (n : Nat) (rest : List Char)
    (hrest : ∀ c ∈ rest.take 1, c.isDigit = false) :
    Json.parseDigits (Json.natDigits n ++ rest) 0 = (n, rest) := by
  rw [parseDigits_append _ rest 0 (natDigits_facts n).2,
    parseDigits_stop rest _ hrest, foldl_natDigits]
  simp

theorem parseVal_intDigits (fuel : Nat) (i : Int) (rest : List Char)
    (hrest : ∀ c ∈ rest.take 1, c.isDigit = false) :
    Json.parseVal (fuel + 1) (Json.intDigits i ++ rest) = some (.num i, rest) := by
  obtain ⟨d, tl, hd⟩ := List.exists_cons_of_ne_nil (natDigits_facts i.natAbs).1
  have hdd : d.isDigit = true :=
    (natDigits_facts i.natAbs).2 d (by rw [hd]; exact List.mem_cons_self _ _)
  have hparse : Json.parseDigits (d :: (tl ++ rest)) 0 = (i.natAbs, rest) := by
    have hform : d :: (tl ++ rest) = Json.natDigits i.natAbs ++ rest := by
      rw [hd, List.cons_append]
    rw [hform]
    exact parseDigits_natDigits i.natAbs rest hrest
  by_cases hneg : i < 0
  · have hform : Json.intDigits i ++ rest = '-' :: (d :: (tl ++ rest)) := by
      simp [Json.intDigits, if_pos hneg, hd]
    rw [hform]
    simp [Json.parseVal, hdd, hparse]
    rw [abs_of_neg hneg]
    exact neg_neg i
  · have hform : Json.intDigits i ++ rest = d :: (tl ++ rest) := by
      simp [Json.intDigits, if_neg hneg, hd]
    rw [hform]
    simp [Json.parseVal, hdd, hparse]
    omega

mutual

theorem jsizeVal_le_len : ∀ v : Json, Json.jsizeVal v ≤ (Json.stringifyVal v).length
  | .null => by simp [Json.jsizeVal, stringify_null_eq]
  | .bool b => by
      cases b <;> simp [Json.jsizeVal, stringify_false_eq, stringify_true_eq]
  | .num i => by
      have h := stringifyVal_ne_nil (.num i)
      have : 0 < (Json.stringifyVal (.num i)).length := List.length_pos.2 h
      simp only [Json.jsizeVal]
      omega
  | .str s => by simp [Json.jsizeVal, Json.stringifyVal]
  | .arr [] => by simp [Json.jsizeVal, Json.stringifyVal]
  | .arr (v :: vs) => by
      have h1 := jsizeVal_le_len v
      have h2 := jsizeItems_le_len vs
      simp [Json.jsizeVal, Json.stringifyVal]
      omega
  | .obj [] => by simp [Json.jsizeVal, Json.stringifyVal]
  | .obj ((k, v) :: fs) => by
      have h1 := jsizeVal_le_len v
      have h2 := jsizeFields_le_len fs
      simp [Json.jsizeVal, Json.stringifyVal]
      omega

theorem jsizeItems_le_len : ∀ vs : List Json,
    Json.jsizeItems vs ≤ (Json.stringifyItems vs).length
  | [] => by simp [Json.jsizeItems, Json.stringifyItems]
  | v :: vs => by
      have h1 := jsizeVal_le_len v
      have h2 := jsizeItems_le_len vs
      simp [Json.jsizeItems, Json.stringifyItems]
      omega

theorem jsizeFields_le_len : ∀ fs : List (String × Json),
    Json.jsizeFields fs ≤ (Json.stringifyFields fs).length
  | [] => by simp [Json.jsizeFields, Json.stringifyFields]
  | (k, v) :: fs => by
      have h1 := jsizeVal_le_len v
      have h2 := jsizeFields_le_len fs
      simp [Json.jsizeFields, Json.stringifyFields]
      omega

end

theorem parse_stringify_master : ∀ fuel : Nat,
    (∀ (v : Json) (rest : List Char),
      (∀ c ∈ rest.take 1, c.isDigit = false) →
      Json.jsizeVal v < fuel →
      Json.parseVal fuel (Json.stringifyVal v ++ rest) = some (v, rest)) ∧
    (∀ (v : Json) (vs : List Json) (rest : List Char),
      Json.jsizeItems (v :: vs) < fuel →
      Json.parseItems fuel
        (Json.stringifyVal v ++ (Json.stringifyItems vs ++ (']' :: rest))) =
        some (v :: vs, rest)) ∧
    (∀ (k : String) (v : Json) (fs : List (String × Json)) (rest : List Char),
      Json.jsizeFields ((k, v) :: fs) < fuel →
      Json.parseFields fuel
        ('"' :: (Json.escStr k.data ++ ('"' :: (':' :: (Json.stringifyVal v ++
          (Json.stringifyFields fs ++ ('\x7d' :: rest))))))) =
        some ((k, v) :: fs, rest)) := by
  intro fuel
  induction fuel with
  | zero =>
    refine ⟨?_, ?_, ?_⟩
    · intro v rest _ hsz
      exact absurd hsz (by omega)
    · intro v vs rest hsz
      exact absurd hsz (by omega)
    · intro k v fs rest hsz
      exact absurd hsz (by omega)
  | succ fuel ih =>
    obtain ⟨ihP, ihQ, ihR⟩ := ih
    refine ⟨?_, ?_, ?_⟩
    · intro v rest hrest hsz
      cases v with
      | null => simp [stringify_null_eq, Json.parseVal]
      | bool b =>
        cases b <;> simp [stringify_false_eq, stringify_true_eq, Json.parseVal]
      | num i =>
        rw [show Json.stringifyVal (.num i) = Json.intDigits i from rfl]
        exact parseVal_intDigits fuel i rest hrest
      | str s =>
        have hform : Json.stringifyVal (.str s) ++ rest =
            '"' :: (Json.escStr s.data ++ ('"' :: rest)) := by
          simp [Json.stringifyVal]
        rw [hform]
        simp [Json.parseVal, parseStrBody_escStr]
      | arr vs =>
        cases vs with
        | nil =>
          have hform : Json.stringifyVal (.arr []) ++ rest = '[' :: (']' :: rest) := by
            simp [Json.stringifyVal]
          rw [hform]
          simp [Json.parseVal]
        | cons v vs =>
          have hform : Json.stringifyVal (.arr (v :: vs)) ++ rest =
              '[' :: (Json.stringifyVal v ++
                (Json.stringifyItems vs ++ (']' :: rest))) := by
            simp [Json.stringifyVal]
          rw [hform]
          obtain ⟨c0, tl0, h0⟩ := List.exists_cons_of_ne_nil (stringifyVal_ne_nil v)
          have hc0 : (Json.stringifyVal v ++
              (Json.stringifyItems vs ++ (']' :: rest))).head? = some c0 := by
            rw [h0]; simp
          have hnb := stringifyVal_head_not_bracket v c0 (by rw [h0]; simp)
          have hQ := ihQ v vs rest (by
            simp only [Json.jsizeVal] at hsz
            simp only [Json.jsizeItems]
            omega)
          simp [Json.parseVal, hc0, hnb.1, hQ]
      | obj fs =>
        rcases fs with _ | ⟨⟨k, v⟩, fs⟩
        · have hform : Json.stringifyVal (.obj []) ++ rest =
              '\x7b' :: ('\x7d' :: rest) := by
            simp [Json.stringifyVal]
          rw [hform]
          simp [Json.parseVal]
        · have hform : Json.stringifyVal (.obj ((k, v) :: fs)) ++ rest =
              '\x7b' :: ('"' :: (Json.escStr k.data ++ ('"' :: (':' ::
                (Json.stringifyVal v ++
                  (Json.stringifyFields fs ++ ('\x7d' :: rest))))))) := by
            simp [Json.stringifyVal]
          rw [hform]
          have hR := ihR k v fs rest (by
            simp only [Json.jsizeVal] at hsz
            simp only [Json.jsizeFields]
            omega)
          simp [Json.parseVal, hR]
    · intro v vs rest hsz
      have hrest' : ∀ c ∈ (Json.stringifyItems vs ++ (']' :: rest)).take 1,
          c.isDigit = false := by
        cases vs with
        | nil =>
          intro c hc
          simp [Json.stringifyItems] at hc
          rw [hc]; decide
        | cons v2 vs2 =>
          intro c hc
          simp [Json.stringifyItems] at hc
          rw [hc]; decide
      have hP := ihP v (Json.stringifyItems vs ++ (']' :: rest)) hrest' (by
        simp only [Json.jsizeItems] at hsz
        omega)
      cases vs with
      | nil =>
        simp only [Json.stringifyItems, List.nil_append] at hP ⊢
        simp [Json.parseItems, hP]
      | cons v2 vs2 =>
        have hform : Json.stringifyItems (v2 :: vs2) ++ (']' :: rest) =
            ',' :: (Json.stringifyVal v2 ++
              (Json.stringifyItems vs2 ++ (']' :: rest))) := by
          simp [Json.stringifyItems]
        rw [hform] at hP ⊢
        have hQ2 := ihQ v2 vs2 rest (by
          simp only [Json.jsizeItems] at hsz ⊢
          omega)
        simp [Json.parseItems, hP, hQ2]
    · intro k v fs rest hsz
      have hrest' : ∀ c ∈ (Json.stringifyFields fs ++ ('\x7d' :: rest)).take 1,
          c.isDigit = false := by
        rcases fs with _ | ⟨⟨k2, v2⟩, fs2⟩
        · intro c hc
          simp [Json.stringifyFields] at hc
          rw [hc]; decide
        · intro c hc
          simp [Json.stringifyFields] at hc
          rw [hc]; decide
      have hstr := parseStrBody_escStr k.data
        (':' :: (Json.stringifyVal v ++ (Json.stringifyFields fs ++ ('\x7d' :: rest))))
      have hP := ihP v (Json.stringifyFields fs ++ ('\x7d' :: rest)) hrest' (by
        simp only [Json.jsizeFields] at hsz
        omega)
      rcases fs with _ | ⟨⟨k2, v2⟩, fs2⟩
      · simp only [Json.stringifyFields, List.nil_append] at hP hstr ⊢
        simp [Json.parseFields, hstr, hP]
      · have hform : Json.stringifyFields ((k2, v2) :: fs2) ++ ('\x7d' :: rest) =
            ',' :: ('"' :: (Json.escStr k2.data ++ ('"' :: (':' ::
              (Json.stringifyVal v2 ++
                (Json.stringifyFields fs2 ++ ('\x7d' :: rest))))))) := by
          simp [Json.stringifyFields]
        rw [hform] at hP hstr ⊢
        have hR2 := ihR k2 v2 fs2 rest (by
          simp only [Json.jsizeFields] at hsz ⊢
          omega)
        simp [Json.parseFields, hstr, hP, hR2]

theorem parseJson_stringifyVal (v : Json) :
    Json.parseJson (Json.stringifyVal v) = some v := by
  unfold Json.parseJson
  have hlen : Json.jsizeVal v < (Json.stringifyVal v).length + 1 :=
    Nat.lt_succ_of_le (jsizeVal_le_len v)
  have h := (parse_stringify_master ((Json.stringifyVal v).length + 1)).1 v []
    (by simp) hlen
  rw [List.append_nil] at h
  rw [h]

theorem readJsonField_storedJson (o : Option Json) (h : optStructuredOk o) :
    readJsonField (storedJson o) = some o := by
  cases o with
  | none => simp [storedJson, readJsonField]
  | some v =>
    have htruthy : jsTruthy v = true := by
      cases v with
      | null => simp [optStructuredOk, Json.isStructured] at h
      | bool b => simp [optStructuredOk, Json.isStructured] at h
      | num i => simp [optStructuredOk, Json.isStructured] at h
      | str s => simp [optStructuredOk, Json.isStructured] at h
      | arr vs => simp [jsTruthy]
      | obj fs => simp [jsTruthy]
    have hne : (⟨Json.stringifyVal v⟩ : String) ≠ "" := by
      intro hx
      exact stringifyVal_ne_nil v (congrArg String.data hx)
    simp only [storedJson, htruthy, if_pos, readJsonField, if_neg hne]
    rw [parseJson_stringifyVal v]
    rfl

theorem parseAllMsgs_of_all_some (l : List MessageRow)
    (h : ∀ m ∈ l, (parseMsgRow m).isSome = true) :
    ∃ pl, parseAllMsgs l = some pl := by
  induction l with
  | nil => exact ⟨[], rfl⟩
  | cons m rest ih =>
    obtain ⟨pl, hpl⟩ := ih (fun x hx => h x (by simp [hx]))
    obtain ⟨pm, hpm⟩ := Option.isSome_iff_exists.1 (h m (by simp))
    exact ⟨pm :: pl, by simp [parseAllMsgs, hpm, hpl]⟩

theorem parseAllMsgs_mem (l : List MessageRow) : ∀ pl, parseAllMsgs l = some pl →
    (∀ m ∈ l, ∀ pm, parseMsgRow m = some pm → pm ∈ pl) ∧
    (∀ pm ∈ pl, ∃ m ∈ l, parseMsgRow m = some pm) := by
  induction l with
  | nil =>
    intro pl hpl
    simp only [parseAllMsgs] at hpl
    obtain rfl : ([] : List ParsedMessage) = pl := by injection hpl
    exact ⟨by simp, by simp⟩
  | cons m rest ih =>
    intro pl hpl
    simp only [parseAllMsgs] at hpl
    rcases h1 : parseMsgRow m with _ | pm0 <;> rw [h1] at hpl
    · simp at hpl
    · rcases h2 : parseAllMsgs rest with _ | pr <;> rw [h2] at hpl
      · simp at hpl
      · obtain rfl : pm0 :: pr = pl := by injection hpl
        obtain ⟨ihm, ihr⟩ := ih pr h2
        constructor
        · intro x hx pm hpm
          rcases List.mem_cons.1 hx with rfl | hx2
          · rw [h1] at hpm
            injection hpm with hpm
            simp [hpm]
          · exact List.mem_cons_of_mem _ (ihm x hx2 pm hpm)
        · intro pm hpm
          rcases List.mem_cons.1 hpm with rfl | hpm2
          · exact ⟨m, by simp, h1⟩
          · obtain ⟨x, hx, hxp⟩ := ihr pm hpm2
            exact ⟨x, by simp [hx], hxp⟩

theorem parseMsgRow_spec (m : MessageRow) (pm : ParsedMessage)
    (h : parseMsgRow m = some pm) :
    pm.id = m.id ∧
    readJsonField m.extracted_symptoms = some pm.extracted_symptoms ∧
    readJsonField m.grounding_sources = some pm.grounding_sources ∧
    readJsonField m.analysis_results = some pm.analysis_results := by
  unfold parseMsgRow at h
  rcases h1 : readJsonField m.extracted_symptoms with _ | es <;> rw [h1] at h
  · simp at h
  · rcases h2 : readJsonField m.grounding_sources with _ | gs <;> rw [h2] at h
    · simp at h
    · rcases h3 : readJsonField m.analysis_results with _ | ar <;> rw [h3] at h
      · simp at h
      · rw [Option.some.injEq] at h
        subst h
        exact ⟨rfl, rfl, rfl, rfl⟩

theorem attachMsgs_of_all_some (db : DB) (l : List SessionRow)
    (h : ∀ s ∈ l, ∃ pms, parseAllMsgs (sessionMessages db s.id) = some pms) :
    ∃ r, attachMsgs db l = some r ∧
      ∀ s ∈ l, ∃ pms, (s, pms) ∈ r ∧
        parseAllMsgs (sessionMessages db s.id) = some pms := by
  induction l with
  | nil => exact ⟨[], rfl, by simp⟩
  | cons s rest ih =>
    obtain ⟨r, hr, hmem⟩ := ih (fun x hx => h x (by simp [hx]))
    obtain ⟨pms, hpms⟩ := h s (by simp)
    refine ⟨(s, pms) :: r, by simp [attachMsgs, hpms, hr], ?_⟩
    intro x hx
    rcases List.mem_cons.1 hx with rfl | hx2
    · exact ⟨pms, by simp, hpms⟩
    · obtain ⟨pms2, hin, hp2⟩ := hmem x hx2
      exact ⟨pms2, by simp [hin], hp2⟩

/-- C6: a message saved with structured values in the optional JSON
sub-fields is retrieved via `getSession` and `listSessions` with the same
structured values, and a sub-field absent at save time is retrieved as
absent. -/
theorem json_subfields_round_trip
    (db : DB) (req : SaveMessageReq) (freshId now mid uid : String)
    (hmid : req.messageId = some mid) (hmid0 : mid ≠ "")
    (hsid : req.sessionId ≠ "") (hrole : req.role ≠ "") (hcontent : req.content ≠ "")
    (hfresh : ∀ m ∈ db.messages, m.id ≠ mid)
    (s0 : SessionRow) (hs0 : s0 ∈ db.sessions) (hs0id : s0.id = req.sessionId)
    (hs0uid : s0.user_id = uid) (huid : uid ≠ "")
    (hwf : ∀ m ∈ db.messages, (parseMsgRow m).isSome = true)
    (hE : optStructuredOk req.extractedSymptoms)
    (hG : optStructuredOk req.groundingSources)
    (hA : optStructuredOk req.analysisResults) :
    (∃ s pms, getSession (saveMessage db req freshId now).1 req.sessionId = .ok s pms ∧
      (∃ pm ∈ pms, pm.id = mid) ∧
      (∀ pm ∈ pms, pm.id = mid →
        pm.extracted_symptoms = req.extractedSymptoms ∧
        pm.grounding_sources = req.groundingSources ∧
        pm.analysis_results = req.analysisResults)) ∧
    (∃ l, listSessions (saveMessage db req freshId now).1 uid = .ok l ∧
      ∃ s pms, (s, pms) ∈ l ∧ s.id = req.sessionId ∧
        (∃ pm ∈ pms, pm.id = mid) ∧
        (∀ pm ∈ pms, pm.id = mid →
          pm.extracted_symptoms = req.extractedSymptoms ∧
          pm.grounding_sources = req.groundingSources ∧
          pm.analysis_results = req.analysisResults)) := by
  have hbad : ¬(req.sessionId = "" ∨ req.role = "" ∨ req.content = "") := by tauto
  have hnodup : db.messages.any (fun m => m.id == mid) = false := by
    rw [List.any_eq_false]
    intro m hm
    simp [hfresh m hm]
  have hsome : db.sessions.any (fun s => s.id == req.sessionId) = true :=
    List.any_eq_true.2 ⟨s0, hs0, by simp [hs0id]⟩
  have heqmsgs : (saveMessage db req freshId now).1.messages =
      db.messages ++
        [{ id := mid, session_id := req.sessionId, role := req.role,
           content := req.content, image_url := jsStrOpt req.imageUrl,
           extracted_symptoms := storedJson req.extractedSymptoms,
           grounding_sources := storedJson req.groundingSources,
           analysis_results := storedJson req.analysisResults, timestamp := now }] := by
    simp [saveMessage, hmid, hbad, hmid0, hnodup, hsome]
  have heqsess : (saveMessage db req freshId now).1.sessions =
      db.sessions.map (fun s =>
        if s.id = req.sessionId then { s with updated_at := now } else s) := by
    simp [saveMessage, hmid, hbad, hmid0, hnodup, hsome]
  have hnewparse : parseMsgRow
      { id := mid, session_id := req.sessionId, role := req.role,
        content := req.content, image_url := jsStrOpt req.imageUrl,
        extracted_symptoms := storedJson req.extractedSymptoms,
        grounding_sources := storedJson req.groundingSources,
        analysis_results := storedJson req.analysisResults, timestamp := now } =
      some { id := mid, session_id := req.sessionId, role := req.role,
             content := req.content, image_url := jsStrOpt req.imageUrl,
             extracted_symptoms := req.extractedSymptoms,
             grounding_sources := req.groundingSources,
             analysis_results := req.analysisResults, timestamp := now } := by
    simp [parseMsgRow, readJsonField_storedJson _ hE, readJsonField_storedJson _ hG,
      readJsonField_storedJson _ hA]
  have hallparse : ∀ m ∈ (saveMessage db req freshId now).1.messages,
      (parseMsgRow m).isSome = true := by
    intro m hm
    rw [heqmsgs] at hm
    rcases List.mem_append.1 hm with hm1 | hm2
    · exact hwf m hm1
    · rw [List.mem_singleton] at hm2
      rw [hm2, hnewparse]
      rfl
  have hsessmem : ∀ (sid : String) (m : MessageRow),
      m ∈ sessionMessages (saveMessage db req freshId now).1 sid →
      m ∈ (saveMessage db req freshId now).1.messages ∧ m.session_id = sid := by
    intro sid m hm
    unfold sessionMessages at hm
    rw [(List.perm_insertionSort _ _).mem_iff] at hm
    rw [List.mem_filter] at hm
    exact ⟨hm.1, by simpa using hm.2⟩
  have hparse_session : ∀ sid : String, ∃ pms,
      parseAllMsgs (sessionMessages (saveMessage db req freshId now).1 sid) = some pms :=
    fun sid => parseAllMsgs_of_all_some _
      (fun m hm => hallparse m (hsessmem sid m hm).1)
  have hnewmem : ∀ sid, sid = req.sessionId →
      ({ id := mid, session_id := req.sessionId, role := req.role,
         content := req.content, image_url := jsStrOpt req.imageUrl,
         extracted_symptoms := storedJson req.extractedSymptoms,
         grounding_sources := storedJson req.groundingSources,
         analysis_results := storedJson req.analysisResults,
         timestamp := now } : MessageRow) ∈
        sessionMessages (saveMessage db req freshId now).1 sid := by
    intro sid hsideq
    unfold sessionMessages
    rw [(List.perm_insertionSort _ _).mem_iff, List.mem_filter]
    refine ⟨?_, by simp [hsideq]⟩
    rw [heqmsgs]
    simp
  have hkey : ∀ pl,
      parseAllMsgs (sessionMessages (saveMessage db req freshId now).1 req.sessionId) =
        some pl →
      (∃ pm ∈ pl, pm.id = mid) ∧
      (∀ pm ∈ pl, pm.id = mid →
        pm.extracted_symptoms = req.extractedSymptoms ∧
        pm.grounding_sources = req.groundingSources ∧
        pm.analysis_results = req.analysisResults) := by
    intro pl hpl
    obtain ⟨hfwd, hbwd⟩ := parseAllMsgs_mem _ pl hpl
    constructor
    · exact ⟨_, hfwd _ (hnewmem req.sessionId rfl) _ hnewparse, rfl⟩
    · intro pm hpm hpmid
      obtain ⟨m, hmmem, hmparse⟩ := hbwd pm hpm
      have hmid2 : pm.id = m.id := (parseMsgRow_spec m pm hmparse).1
      obtain ⟨hmdb, _⟩ := hsessmem req.sessionId m hmmem
      rw [heqmsgs] at hmdb
      rcases List.mem_append.1 hmdb with hold | hnew
      · exact absurd (hmid2.symm.trans hpmid) (hfresh m hold)
      · rw [List.mem_singleton] at hnew
        rw [hnew] at hmparse
        rw [hnewparse, Option.some.injEq] at hmparse
        rw [← hmparse]
        exact ⟨rfl, rfl, rfl⟩
  constructor
  · obtain ⟨pl, hpl⟩ := hparse_session req.sessionId
    have hmemsess : ({ s0 with updated_at := now } : SessionRow) ∈
        (saveMessage db req freshId now).1.sessions := by
      rw [heqsess]
      exact List.mem_map.2 ⟨s0, hs0, by simp [hs0id]⟩
    rcases hf : (saveMessage db req freshId now).1.sessions.find?
        (fun s => s.id == req.sessionId) with _ | sF
    · exfalso
      have := List.find?_eq_none.1 hf _ hmemsess
      simp [hs0id] at this
    · refine ⟨sF, pl, ?_, hkey pl hpl⟩
      simp [getSession, hf, hpl]
  · obtain ⟨r, hr, hmem⟩ := attachMsgs_of_all_some (saveMessage db req freshId now).1
      (List.insertionSort (fun a b => b.updated_at ≤ a.updated_at)
        ((saveMessage db req freshId now).1.sessions.filter
          (fun s => s.user_id == uid)))
      (fun s _ => hparse_session s.id)
    have hbump : ({ s0 with updated_at := now } : SessionRow) ∈
        List.insertionSort (fun a b => b.updated_at ≤ a.updated_at)
          ((saveMessage db req freshId now).1.sessions.filter
            (fun s => s.user_id == uid)) := by
      rw [(List.perm_insertionSort _ _).mem_iff, List.mem_filter]
      constructor
      · rw [heqsess]
        exact List.mem_map.2 ⟨s0, hs0, by simp [hs0id]⟩
      · simp [hs0uid]
    obtain ⟨pms, hin, hpms⟩ := hmem _ hbump
    have hidbump : ({ s0 with updated_at := now } : SessionRow).id = req.sessionId :=
      hs0id
    rw [show ({ s0 with updated_at := now } : SessionRow).id = req.sessionId
      from hs0id] at hpms
    refine ⟨r, ?_, { s0 with updated_at := now }, pms, hin, hs0id, hkey pms hpms⟩
    have hshape : listSessions (saveMessage db req freshId now).1 uid =
        match attachMsgs (saveMessage db req freshId now).1
          (List.insertionSort (fun a b => b.updated_at ≤ a.updated_at)
            (List.filter (fun s => s.user_id == uid)
              (saveMessage db req freshId now).1.sessions)) with
        | none => ListSessionsResult.integrityFault
        | some l => ListSessionsResult.ok l := by
      unfold listSessions
      rw [if_neg huid]
    rw [hshape, hr]

/-- C6 witness: a message saved under session `s1` with structured
symptom and analysis values and no grounding sources. -/
theorem json_subfields_round_trip_witness :
    (∃ s pms, getSession (saveMessage
          ⟨[], [⟨"s1", "u1", "T", "t0", "t0"⟩], []⟩
          ⟨"s1", "user", "hello", none, some (.arr [.str "fever", .str "cough"]),
           none, some (.obj [("score", .num 3)]), some "m1"⟩ "g1" "t2").1 "s1" =
        .ok s pms ∧
      (∃ pm ∈ pms, pm.id = "m1") ∧
      (∀ pm ∈ pms, pm.id = "m1" →
        pm.extracted_symptoms = some (.arr [.str "fever", .str "cough"]) ∧
        pm.grounding_sources = none ∧
        pm.analysis_results = some (.obj [("score", .num 3)]))) ∧
    (∃ l, listSessions (saveMessage
          ⟨[], [⟨"s1", "u1", "T", "t0", "t0"⟩], []⟩
          ⟨"s1", "user", "hello", none, some (.arr [.str "fever", .str "cough"]),
           none, some (.obj [("score", .num 3)]), some "m1"⟩ "g1" "t2").1 "u1" =
        .ok l ∧
      ∃ s pms, (s, pms) ∈ l ∧ s.id = "s1" ∧
        (∃ pm ∈ pms, pm.id = "m1") ∧
        (∀ pm ∈ pms, pm.id = "m1" →
          pm.extracted_symptoms = some (.arr [.str "fever", .str "cough"]) ∧
          pm.grounding_sources = none ∧
          pm.analysis_results = some (.obj [("score", .num 3)]))) :=
  json_subfields_round_trip
    ⟨[], [⟨"s1", "u1", "T", "t0", "t0"⟩], []⟩
    ⟨"s1", "user", "hello", none, some (.arr [.str "fever", .str "cough"]),
     none, some (.obj [("score", .num 3)]), some "m1"⟩
    "g1" "t2" "m1" "u1" rfl (by decide) (by decide) (by decide) (by decide)
    (by simp) ⟨"s1", "u1", "T", "t0", "t0"⟩ (by simp) rfl rfl (by decide)
    (by simp) (by simp [optStructuredOk, Json.isStructured])
    (by simp [optStructuredOk]) (by simp [optStructuredOk, Json.isStructured])
